import Mathlib

/-
Verification development for the Cambridge restaurant dialog system
(keyword_extractor.py and dialog_agent.py). The Python sources are embedded
shallowly: text is modelled as `List Char`, the word-boundary regex search of
`make_regex_patterns`/`re.search` is implemented directly, and the stateful
dialog agent becomes a pure transition function on an explicit session record.
-/

set_option maxRecDepth 4000

/-! ## Character and text utilities (keyword_extractor.clean_text and friends) -/

/-- The apostrophe character (kept by `clean_text`). -/
def aposChar : Char := Char.ofNat 39

/-- Python regex `\w` for the ASCII texts this system handles. -/
def isWordChar (c : Char) : Bool := c.isAlphanum || c == Char.ofNat 95

/-- Python regex `\s` (ASCII whitespace). -/
def isSpaceLike (c : Char) : Bool :=
  c == ' ' || c == Char.ofNat 9 || c == Char.ofNat 10 ||
  c == Char.ofNat 13 || c == Char.ofNat 11 || c == Char.ofNat 12

/-- Characters kept by `clean_text`: word characters, apostrophe, ampersand,
slash and hyphen (whitespace is handled separately by the collapsing pass). -/
def keepChar (c : Char) : Bool :=
  isWordChar c || c == aposChar || c == '&' || c == '/' || c == '-'

/-- Split on spaces, dropping empty words (Python `str.split()`), accumulator form. -/
def splitWordsAux : List Char → List Char → List (List Char)
  | [], acc => if acc.isEmpty then [] else [acc.reverse]
  | c :: rest, acc =>
      if c == ' ' then
        if acc.isEmpty then splitWordsAux rest []
        else acc.reverse :: splitWordsAux rest []
      else splitWordsAux rest (c :: acc)

/-- Split on spaces, dropping empty words (Python `str.split()`). -/
def splitWords (s : List Char) : List (List Char) := splitWordsAux s []

/-- `clean_text` from keyword_extractor.py: lowercase, replace every character
outside the kept class (and outside whitespace) by a space, collapse
whitespace runs, and strip. -/
def clean_chars (s : List Char) : List Char :=
  let replaced := s.map (fun c =>
    let lc := c.toLower
    if keepChar lc then lc else ' ')
  List.intercalate [' '] (splitWords replaced)

/-! ## Word-boundary pattern search

`make_regex_patterns` compiles each cleaned keyword into `\b<keyword>\b` and
`first_match`/`first_match_with_span` run `pattern.search` over the text.  A
Python `\b` matches at a position where exactly one side is a `\w` character. -/

/-- Whether the character at index `j` of `t` is a word character (out of range
counts as a non-word position, as at the ends of a regex subject). -/
def isWordAt (t : List Char) (j : Nat) : Bool :=
  match t.get? j with
  | some c => isWordChar c
  | none => false

/-- Python `\b` at position `j` of `t`. -/
def boundaryAt (t : List Char) (j : Nat) : Bool :=
  (if j == 0 then false else isWordAt t (j - 1)) != isWordAt t j

/-- Whether the literal phrase `p`, wrapped in `\b...\b`, matches `t` at index `i`. -/
def matchesAt (t p : List Char) (i : Nat) : Bool :=
  ((t.drop i).take p.length == p) && boundaryAt t i && boundaryAt t (i + p.length)

/-- `re.search` for a `\b<phrase>\b` pattern: the leftmost match and its span. -/
def regex_search (p t : List Char) : Option (Nat × Nat) :=
  ((List.range (t.length + 1)).find? (fun i => matchesAt t p i)).map
    (fun i => (i, i + p.length))

/-- Lexicographic order on character lists, used to make the length-descending
sort of `make_regex_patterns` canonical. -/
def charListLe : List Char → List Char → Bool
  | [], _ => true
  | _ :: _, [] => false
  | x :: xs, y :: ys => if x == y then charListLe xs ys else decide (x < y)

/-- Sort key of `make_regex_patterns`: length descending (ties broken
lexicographically so the embedding is deterministic where the Python set
iteration order is not; no claim depends on the tie order). -/
def phraseLe (a b : List Char) : Bool :=
  if a.length == b.length then charListLe a b else decide (b.length < a.length)

/-- Insert into a `phraseLe`-sorted list. -/
def insertPhrase (x : List Char) : List (List Char) → List (List Char)
  | [] => [x]
  | y :: ys => if phraseLe x y then x :: y :: ys else y :: insertPhrase x ys

/-- Insertion sort by `phraseLe`. -/
def sortPhrases : List (List Char) → List (List Char)
  | [] => []
  | x :: xs => insertPhrase x (sortPhrases xs)

/-- `make_regex_patterns` from keyword_extractor.py: clean the keywords (dropping
falsy ones), deduplicate, and sort so longer phrases are tried first. -/
def make_regex_patterns (keywords : List String) : List (List Char) :=
  sortPhrases (((keywords.filter (fun k => k != "")).map
    (fun k => clean_chars k.data)).dedup)

/-- `first_match_with_span`: the first pattern in order that occurs anywhere in
the text, together with the span of its leftmost occurrence. -/
def first_match_with_span (patterns : List (List Char)) (t : List Char) :
    Option (List Char × (Nat × Nat)) :=
  patterns.findSome? (fun p => (regex_search p t).map (fun sp => (p, sp)))

/-- `first_match`: the first pattern in order that occurs anywhere in the text. -/
def first_match (patterns : List (List Char)) (t : List Char) : Option (List Char) :=
  (first_match_with_span patterns t).map (·.1)

/-! ## Levenshtein distance (the external `Levenshtein.distance` dependency),
implemented as the standard dynamic-programming row recurrence. -/

/-- One row of the edit-distance table: walk `b` and the previous row in
lockstep, carrying the cell to the left. -/
def levRow (ca : Char) : List Char → List Nat → Nat → List Nat
  | cb :: bs, diag :: up :: rest, left =>
      let cell := min (min (up + 1) (left + 1)) (diag + (if ca == cb then 0 else 1))
      cell :: levRow ca bs (up :: rest) cell
  | _, _, _ => []

/-- Levenshtein edit distance between two character lists. -/
def lev_distance (a b : List Char) : Nat :=
  let init := List.range (b.length + 1)
  let final := a.foldl (fun prev ca =>
    match prev with
    | [] => []
    | d0 :: _ => (d0 + 1) :: levRow ca b prev (d0 + 1)) init
  (final.getLast?).getD 0

/-! ## The static tables of keyword_extractor.py -/

/-- `pricerange_keyword_map`. -/
def pricerange_keyword_map : List (String × String) :=
  [("moderately", "moderate"), ("moderately priced", "moderate"), ("mid", "moderate"),
   ("midrange", "moderate"), ("mid-range", "moderate"), ("affordable", "moderate"),
   ("budget", "cheap"), ("low", "cheap"), ("inexpensive", "cheap"),
   ("pricey", "expensive"), ("high end", "expensive"), ("high-end", "expensive"),
   ("any", "dontcare"), ("any price", "dontcare"),
   ("dont care", "dontcare"), ("don\x27t care", "dontcare"),
   ("doesnt matter", "dontcare"), ("doesn\x27t matter", "dontcare")]

/-- `area_keyword_map`. -/
def area_keyword_map : List (String × String) :=
  [("center", "centre"), ("city center", "centre"), ("city centre", "centre"),
   ("downtown", "centre"),
   ("north part of town", "north"), ("south part of town", "south"),
   ("east part of town", "east"), ("west part of town", "west"),
   ("any", "dontcare"), ("anywhere", "dontcare"),
   ("dont care", "dontcare"), ("don\x27t care", "dontcare"),
   ("doesnt matter", "dontcare"), ("doesn\x27t matter", "dontcare")]

/-- `food_keyword_map`. -/
def food_keyword_map : List (String × String) :=
  [("europe", "european"), ("britain", "british"), ("portugese", "portuguese"),
   ("gastro pub", "gastropub"), ("asian-oriental", "asian oriental"),
   ("asian/oriental", "asian oriental"),
   ("any", "dontcare"), ("any food", "dontcare"),
   ("dont care", "dontcare"), ("don\x27t care", "dontcare"),
   ("doesnt matter", "dontcare"), ("doesn\x27t matter", "dontcare")]

/-- `pricerange_indicator_terms`. -/
def pricerange_indicator_terms : List String :=
  ["price", "price range", "pricerange", "priced", "prices", "pricing",
   "cost", "costs", "costly", "expense", "expensive", "cheap",
   "budget", "affordable", "inexpensive", "how much"]

/-- `area_indicator_terms`. -/
def area_indicator_terms : List String :=
  ["area", "part of town", "part of the town", "town", "neighborhood",
   "neighbourhood", "location", "side of town", "where",
   "in town", "area of town"]

/-- `food_indicator_terms`. -/
def food_indicator_terms : List String :=
  ["food", "cuisine", "type of food", "kind of food", "meal", "dish",
   "type of cuisine", "serve", "serves", "serving", "served"]

/-- `stopwords`. -/
def stopwords : List String :=
  ["a", "an", "and", "are", "as", "at", "be", "but", "for", "from",
   "in", "into", "is", "it", "of", "on", "or", "that", "the", "to",
   "was", "were", "will", "with"]

/-- The per-slot option sets are loaded at module import from
`datasets/restaurant_info.csv` as the distinct non-empty values of the
`pricerange`, `area` and `food` columns; the dataset file is not part of the
sources, so a `Lexicon` abstracts the three column value sets. All pipeline
definitions and most theorems are parametric in the lexicon. -/
structure Lexicon where
  dataset_pricerange : List String
  dataset_area : List String
  dataset_food : List String
deriving DecidableEq

/-- `pricerange_options`: the dataset values with the wildcard `dontcare` added. -/
def pricerange_options (lex : Lexicon) : List String :=
  lex.dataset_pricerange ++ ["dontcare"]

/-- `area_options`: the dataset values with the wildcard `dontcare` added. -/
def area_options (lex : Lexicon) : List String :=
  lex.dataset_area ++ ["dontcare"]

/-- `food_options`: the dataset values with the wildcard `dontcare` added. -/
def food_options (lex : Lexicon) : List String :=
  lex.dataset_food ++ ["dontcare"]

/-- Modelled from the spec: the concrete dataset column values behind the
option sets (the CSV itself is missing from the sources). The spec fixes the
three price ranges, the five areas, and names the cuisines its testable
properties rely on (romanian, north american, african), to which a few common
dataset cuisines from the repository test phrases are added. -/
def mainLex : Lexicon :=
  { dataset_pricerange := ["cheap", "moderate", "expensive"]
  , dataset_area := ["centre", "north", "south", "east", "west"]
  , dataset_food := ["african", "british", "chinese", "european",
                     "north american", "romanian", "thai"] }

/-! ## map_keyword_to_option and the mention detector -/

/-- Association-list lookup standing in for the Python dict lookup. -/
def lookupKW (m : List (String × String)) (k : List Char) : Option (List Char) :=
  (m.find? (fun kv => kv.1.data == k)).map (fun kv => kv.2.data)

/-- `map_keyword_to_option`: resolve a matched keyword through the synonym map
and keep it only when the result is a legal option. -/
def map_keyword_to_option (keyword : Option (List Char))
    (kmap : List (String × String)) (options : List String) : Option (List Char) :=
  match keyword with
  | none => none
  | some k =>
      if k.isEmpty then none
      else
        let mapped := (lookupKW kmap k).getD k
        if options.any (fun o => o.data == mapped) then some mapped else none

/-- `slot_mention_keyword_map["pricerange"]` compiled to patterns. -/
def price_mention_patterns (lex : Lexicon) : List (List Char) :=
  make_regex_patterns (pricerange_options lex ++ pricerange_keyword_map.map (·.1) ++
    pricerange_indicator_terms)

/-- `slot_mention_keyword_map["area"]` compiled to patterns. -/
def area_mention_patterns (lex : Lexicon) : List (List Char) :=
  make_regex_patterns (area_options lex ++ area_keyword_map.map (·.1) ++
    area_indicator_terms)

/-- `slot_mention_keyword_map["food"]` compiled to patterns. -/
def food_mention_patterns (lex : Lexicon) : List (List Char) :=
  make_regex_patterns (food_options lex ++ food_keyword_map.map (·.1) ++
    food_indicator_terms)

/-- One slot of `detect_preference_mentions`: clean the text and test the
mention patterns. -/
def detect_mention (patterns : List (List Char)) (text : List Char) : Bool :=
  (first_match patterns (clean_chars text)).isSome

/-! ## fuzzy_find_keyword -/

/-- `"dontcare"` as characters. -/
def dontcareChars : List Char := "dontcare".data

/-- `"unknown"` as characters. -/
def unknownChars : List Char := "unknown".data

/-- The running bests of `fuzzy_find_keyword`: closest concrete value and
closest dontcare value, tracked separately. -/
structure FuzzyState where
  best_value : Option (List Char)
  best_distance : Nat
  best_dc_value : Option (List Char)
  best_dc_distance : Nat
deriving DecidableEq

/-- `max(1, min(max_distance, len(candidate_clean) // 3))`. -/
def allowed_distance (max_distance : Nat) (cand : List Char) : Nat :=
  max 1 (min max_distance (cand.length / 3))

/-- The cleaned, stopword-free tokens `fuzzy_find_keyword` works on. -/
def fuzzy_tokens (text : List Char) : List (List Char) :=
  (splitWords (clean_chars text)).filter
    (fun t => !(stopwords.any (fun s => s.data == t)))

/-- The same-length sliding-window segments for a candidate of `wc` words. -/
def segmentsFor (tokens : List (List Char)) (wc : Nat) : List (List Char) :=
  (List.range (tokens.length + 1 - wc)).map
    (fun i => List.intercalate [' '] ((tokens.drop i).take wc))

/-- The inner segment loop of `fuzzy_find_keyword`: one segment against one
candidate, updating whichever best applies. -/
def fuzzy_update_seg (mapped cand : List Char) (allowed : Nat)
    (st : FuzzyState) (seg : List Char) : FuzzyState :=
  if seg.length < 3 then st
  else
    let d := lev_distance seg cand
    if allowed < d then st
    else if mapped == dontcareChars then
      if d < st.best_dc_distance then
        { st with best_dc_value := some mapped, best_dc_distance := d }
      else st
    else
      if d < st.best_distance then
        { st with best_value := some mapped, best_distance := d }
      else st

/-- The outer candidate loop of `fuzzy_find_keyword`: one candidate phrase. -/
def fuzzy_update_cand (kmap : List (String × String)) (options : List String)
    (max_distance : Nat) (tokens : List (List Char))
    (st : FuzzyState) (candidate : String) : FuzzyState :=
  let cand := clean_chars candidate.data
  if cand.isEmpty then st
  else
    match map_keyword_to_option (some cand) kmap options with
    | none => st
    | some mapped =>
        let wc := max 1 (splitWords cand).length
        let segs := segmentsFor tokens wc
        if segs.isEmpty then st
        else segs.foldl (fuzzy_update_seg mapped cand (allowed_distance max_distance cand)) st

/-- `fuzzy_find_keyword`: recover a close match by edit distance, preferring a
concrete value over a dontcare match even when the latter is closer. -/
def fuzzy_find_keyword (text : List Char) (kmap : List (String × String))
    (options : List String) (max_distance : Nat) : Option (List Char) :=
  let tokens := fuzzy_tokens text
  if tokens.isEmpty then none
  else
    let candidates := options ++ kmap.map (·.1)
    let final := candidates.foldl (fuzzy_update_cand kmap options max_distance tokens)
      ⟨none, max_distance + 1, none, max_distance + 1⟩
    if final.best_value.isSome then final.best_value
    else if final.best_dc_distance ≤ max_distance then final.best_dc_value
    else none

/-! ## extract_keywords -/

/-- The result record of `extract_keywords`: exactly the three slot keys. -/
structure ExtractOutput where
  pricerange : Option String
  area : Option String
  food : Option String
deriving DecidableEq

/-- `text[:start] + " " * (end - start) + text[end:]`. -/
def maskSpan (t : List Char) (s e : Nat) : List Char :=
  t.take s ++ List.replicate (e - s) ' ' ++ t.drop e

/-- The lowercased input (`text = text.lower()`). -/
def lowerChars (text : List Char) : List Char := text.map Char.toLower

/-- The compiled price patterns of `extract_keywords`. -/
def price_patterns (lex : Lexicon) : List (List Char) :=
  make_regex_patterns (pricerange_options lex ++ pricerange_keyword_map.map (·.1))

/-- The compiled area patterns of `extract_keywords`. -/
def area_patterns (lex : Lexicon) : List (List Char) :=
  make_regex_patterns (area_options lex ++ area_keyword_map.map (·.1))

/-- The compiled food patterns of `extract_keywords`. -/
def food_patterns (lex : Lexicon) : List (List Char) :=
  make_regex_patterns (food_options lex ++ food_keyword_map.map (·.1))

/-- The span of the first food-phrase match in the lowercased text. -/
def food_span (lex : Lexicon) (text : List Char) : Option (Nat × Nat) :=
  (first_match_with_span (food_patterns lex) (lowerChars text)).map (·.2)

/-- `area_search_text`: the lowercased text with the food span masked out. -/
def area_search_chars (lex : Lexicon) (text : List Char) : List Char :=
  match food_span lex text with
  | some (s, e) => maskSpan (lowerChars text) s e
  | none => lowerChars text

/-- `area_fuzzy_text`: the original-case text with the food span masked out. -/
def area_fuzzy_chars (lex : Lexicon) (text : List Char) : List Char :=
  match food_span lex text with
  | some (s, e) => maskSpan text s e
  | none => text

/-- The regex-based price value (matched keyword mapped to an option). -/
def raw_price (lex : Lexicon) (text : List Char) : Option (List Char) :=
  map_keyword_to_option
    ((first_match_with_span (price_patterns lex) (lowerChars text)).map (·.1))
    pricerange_keyword_map (pricerange_options lex)

/-- The regex-based area value, searched on the food-masked text. -/
def raw_area (lex : Lexicon) (text : List Char) : Option (List Char) :=
  map_keyword_to_option
    ((first_match_with_span (area_patterns lex) (area_search_chars lex text)).map (·.1))
    area_keyword_map (area_options lex)

/-- The regex-based food value. -/
def raw_food (lex : Lexicon) (text : List Char) : Option (List Char) :=
  map_keyword_to_option
    ((first_match_with_span (food_patterns lex) (lowerChars text)).map (·.1))
    food_keyword_map (food_options lex)

/-- The pricerange mention flag (`detect_preference_mentions` on the original text). -/
def price_mention (lex : Lexicon) (text : List Char) : Bool :=
  detect_mention (price_mention_patterns lex) text

/-- The food mention flag. -/
def food_mention (lex : Lexicon) (text : List Char) : Bool :=
  detect_mention (food_mention_patterns lex) text

/-- The area mention flag: recomputed on the food-masked text whenever a food
span was found, else `detect_preference_mentions` on the original text. -/
def area_mention (lex : Lexicon) (text : List Char) : Bool :=
  match food_span lex text with
  | some _ => (first_match (area_mention_patterns lex) (clean_chars (area_fuzzy_chars lex text))).isSome
  | none => detect_mention (area_mention_patterns lex) text

/-- The fuzzy price recovery (`fuzzy_find_keyword(original_text, ...)`). -/
def fuzzy_price (lex : Lexicon) (text : List Char) : Option (List Char) :=
  fuzzy_find_keyword text pricerange_keyword_map (pricerange_options lex) 3

/-- The fuzzy area recovery, on the food-masked original text. -/
def fuzzy_area (lex : Lexicon) (text : List Char) : Option (List Char) :=
  fuzzy_find_keyword (area_fuzzy_chars lex text) area_keyword_map (area_options lex) 3

/-- The fuzzy food recovery. -/
def fuzzy_food (lex : Lexicon) (text : List Char) : Option (List Char) :=
  fuzzy_find_keyword text food_keyword_map (food_options lex) 3

/-- The merge step of `extract_keywords`: take the fuzzy result when the regex
result is empty, or when the regex result is the wildcard and the fuzzy result
is a concrete value. -/
def merge_value (regexVal fuzzyVal : Option (List Char)) : Option (List Char) :=
  if regexVal == none ||
     (regexVal == some dontcareChars &&
      !(fuzzyVal == none || fuzzyVal == some dontcareChars)) then
    match fuzzyVal with
    | some v => some v
    | none => regexVal
  else regexVal

/-- The merged pricerange value before the unresolved-sentinel step. -/
def merged_price (lex : Lexicon) (text : List Char) : Option (List Char) :=
  merge_value (raw_price lex text) (fuzzy_price lex text)

/-- The merged area value before the unresolved-sentinel step. -/
def merged_area (lex : Lexicon) (text : List Char) : Option (List Char) :=
  merge_value (raw_area lex text) (fuzzy_area lex text)

/-- The merged food value before the unresolved-sentinel step. -/
def merged_food (lex : Lexicon) (text : List Char) : Option (List Char) :=
  merge_value (raw_food lex text) (fuzzy_food lex text)

/-- The two final passes of `extract_keywords`: a missing value becomes the
`"unknown"` sentinel, and an `"unknown"` whose slot was never mentioned
collapses back to absent. -/
def finalize_slot (v : Option (List Char)) (mention : Bool) : Option (List Char) :=
  match v with
  | none => if mention then some unknownChars else none
  | some s => if s == unknownChars && !mention then none else some s

/-- `extract_keywords` from keyword_extractor.py. -/
def extract_keywords (lex : Lexicon) (text : String) : ExtractOutput :=
  { pricerange := (finalize_slot (merged_price lex text.data) (price_mention lex text.data)).map String.mk
  , area := (finalize_slot (merged_area lex text.data) (area_mention lex text.data)).map String.mk
  , food := (finalize_slot (merged_food lex text.data) (food_mention lex text.data)).map String.mk }

/-! ## Restaurant records and the reasoning filter (dialog_agent.py) -/

/-- A restaurant row as handed around by dialog_agent.py; the
`reasoning_explained` field models the optional dict key of the same name. -/
structure Restaurant where
  restaurantname : String
  pricerange : String
  area : String
  food : String
  phone : String
  addr : String
  postcode : String
  food_quality : String
  crowdedness : String
  length_of_stay : String
  reasoning_explained : Option String
deriving DecidableEq

/-- A record with every field empty, standing in for an unguarded dict access
on a missing suggestion (unreachable along the source control flow). -/
def emptyRestaurant : Restaurant :=
  ⟨"", "", "", "", "", "", "", "", "", "", none⟩

/-- The four secondary-preference flags, in the order the filter tests them. -/
structure Flags where
  touristic : Bool
  assigned_seats : Bool
  children : Bool
  romantic : Bool
deriving DecidableEq

/-- Set `reasoning_explained` when absent, else append to it (the appended
variant carries its own leading text, as in the source f-strings). -/
def setOrAppend (r : Restaurant) (freshMsg appendMsg : String) : Restaurant :=
  match r.reasoning_explained with
  | some prev => { r with reasoning_explained := some (prev ++ appendMsg) }
  | none => { r with reasoning_explained := some freshMsg }

/-- The `touristic` block of `__reasoning_rules_filter`: romanian is checked
before the cheap/good test and forces removal by itself. -/
def touristic_step (active : Bool) (rr : Restaurant × Bool) : Restaurant × Bool :=
  let (r, rem) := rr
  if active then
    let romanian := r.food == "romanian"
    let cheap_good := r.pricerange == "cheap" && r.food_quality == "good"
    if romanian then (r, true)
    else if cheap_good == false then (r, true)
    else
      ({ r with reasoning_explained := some ("This restaurant is great for tourists, because the food quality is "
          ++ r.food_quality ++ " and the food is " ++ r.pricerange ++ ".") }, rem)
  else (r, rem)

/-- The `assigned_seats` block: requires crowdedness busy. -/
def assigned_step (active : Bool) (rr : Restaurant × Bool) : Restaurant × Bool :=
  let (r, rem) := rr
  if active then
    if r.crowdedness != "busy" then (r, true)
    else
      (setOrAppend r
        ("This restaurant assignes your seats because the crowdedness is " ++ r.crowdedness ++ ".")
        (" This restaurant is also assignes your seats because the crowdedness is " ++ r.crowdedness ++ "."), rem)
  else (r, rem)

/-- The `children` block: a long stay means removal. -/
def children_step (active : Bool) (rr : Restaurant × Bool) : Restaurant × Bool :=
  let (r, rem) := rr
  if active then
    if r.length_of_stay == "long" then (r, true)
    else
      (setOrAppend r
        ("This restaurant is good for taking children to, because your expected to stay for a " ++ r.length_of_stay ++ " time.")
        (" Also this restaurant is good for taking children to, because your expected to stay for a " ++ r.length_of_stay ++ " time."), rem)
  else (r, rem)

/-- The `romantic` block: a short stay is checked first and forces removal,
then busy crowdedness forces removal. -/
def romantic_step (active : Bool) (rr : Restaurant × Bool) : Restaurant × Bool :=
  let (r, rem) := rr
  if active then
    let busy := r.crowdedness == "busy"
    let long_stay := r.length_of_stay == "long"
    if long_stay == false then (r, true)
    else if busy then (r, true)
    else
      (setOrAppend r
        ("This restaurant is romantic, because crowdedness is " ++ r.crowdedness ++ " and you are expected to stay for a " ++ r.length_of_stay ++ " time.")
        (" This restaurant is also romantic, because crowdedness is " ++ r.crowdedness ++ " and you are expected to stay for a " ++ r.length_of_stay ++ " time."), rem)
  else (r, rem)

/-- One loop iteration of `__reasoning_rules_filter`: the four flag blocks in
source order, producing the (possibly annotated) restaurant and its
`remove_restaurant` flag. -/
def process_restaurant (f : Flags) (r : Restaurant) : Restaurant × Bool :=
  romantic_step f.romantic (children_step f.children
    (assigned_step f.assigned_seats (touristic_step f.touristic (r, false))))

/-- `__reasoning_rules_filter`: collect the restaurants to remove while the
loop annotates survivors in place, then remove them from the list. -/
def reasoning_rules_filter (f : Flags) (rs : List Restaurant) : List Restaurant :=
  let processed := rs.map (process_restaurant f)
  let updated := processed.map (·.1)
  let to_remove := (processed.filter (·.2)).map (·.1)
  to_remove.foldl (fun acc x => acc.erase x) updated

/-- `__look_up_restaurants` with the pandas dataframe replaced by a list of
rows: each filter applies unless the requested value is the wildcard. -/
def look_up_restaurants (db : List Restaurant) (area priceRange food_type : String) :
    List Restaurant :=
  let m := db
  let m := if String.mk (area.data.map Char.toLower) != "dontcare" then m.filter (fun r => r.area == area) else m
  let m := if food_type != "dontcare" then m.filter (fun r => r.food == food_type) else m
  let m := if priceRange != "dontcare" then m.filter (fun r => r.pricerange == priceRange) else m
  m

/-! ## The dialog session and configuration (dialogAgent state) -/

/-- One queued slot confirmation (`pending_queue` entry). -/
structure PendingEntry where
  slot : String
  value : String
  ask_state : String
  prompt : String
deriving DecidableEq

/-- The mutable state of a `dialogAgent` instance. -/
structure Session where
  area : Option String
  price : Option String
  food : Option String
  state_history : List (Option String)
  restaurants : List Restaurant
  sugg_restaurant : Option Restaurant
  debug_mode : Bool
  confirm_preferences : Bool
  allow_restart : Bool
  informal_utterances : Bool
  random_order : Bool
  pending_slot : Option String
  pending_value : Option String
  pending_state : Option String
  pending_prompt : Option String
  pending_message : Option String
  pending_queue : List PendingEntry
  romantic : Bool
  children : Bool
  assigned_seats : Bool
  touristic : Bool
  prefference_order : List String
deriving DecidableEq

/-- The outcome of reading config.json at construction time: the file may be
missing, unreadable or malformed, or parsed with each key optionally present. -/
inductive ConfigSource where
  | absent
  | malformed
  | parsed (confirm restart informal random : Option Bool)
deriving DecidableEq

/-- The toggle-loading logic of `dialogAgent.__init__`: all four flags start
false; a parse failure resets them to false; a parsed config supplies each
flag with `get(key, False)`. -/
def load_config_flags : ConfigSource → Bool × Bool × Bool × Bool
  | .absent => (false, false, false, false)
  | .malformed => (false, false, false, false)
  | .parsed c r i rd => (c.getD false, r.getD false, i.getD false, rd.getD false)

/-- `dialogAgent.__init__`: the initial session for a configuration source. -/
def init_session (cfg : ConfigSource) (debug : Bool) : Session :=
  let flags := load_config_flags cfg
  { area := none, price := none, food := none, state_history := [],
    restaurants := [], sugg_restaurant := none, debug_mode := debug,
    confirm_preferences := flags.1, allow_restart := flags.2.1,
    informal_utterances := flags.2.2.1, random_order := flags.2.2.2,
    pending_slot := none, pending_value := none, pending_state := none,
    pending_prompt := none, pending_message := none, pending_queue := [],
    romantic := false, children := false, assigned_seats := false,
    touristic := false,
    prefference_order := ["2.2 Ask Area", "3.2 Ask price", "4.2 Ask Food type"] }

/-- The session flags in the order `__reasoning_rules_filter` reads them. -/
def sessionFlags (s : Session) : Flags :=
  ⟨s.touristic, s.assigned_seats, s.children, s.romantic⟩

/-! ## The dialog state machine (`dialogAgent.__state_transition`) -/

/-- The external collaborators of the controller: the intent classifier, the
restaurant table behind `__look_up_restaurants`, and the two randomized
choices (`random.choice`, `random.shuffle`). -/
structure DialogEnv where
  lex : Lexicon
  classify : String → String
  db : List Restaurant
  choice : List Restaurant → Restaurant
  shuffle : List String → List String

/-- The shared greeting (`WELCOME_MESSAGE`). -/
def WELCOME_MESSAGE : String :=
  "Hello , welcome to the Cambridge restaurant system? You can ask for restaurants by area , price range or food type . How may I help you?"

/-- The informal greeting (`WELCOME_MESSAGE_INFORMAL`). -/
def WELCOME_MESSAGE_INFORMAL : String :=
  "Eyoo, What\x27s up? I\x27m gonna help you pick a restaurant to eat. Just tell me the area, price range and what type of food you like."

/-- The restart keyword fallback phrases. -/
def restart_phrases : List String := ["restart", "start over", "start again", "reset"]

/-- `confirm_intents`. -/
def confirm_intents : List String := ["confirm", "affirm"]

/-- `deny_intents`. -/
def deny_intents : List String := ["deny", "negate"]

/-- The manual yes words of the Confirm-preference fallback. -/
def yes_words : List String :=
  ["yes", "yeah", "yep", "sure", "correct", "absolutely", "affirmative", "right"]

/-- The manual no words of the Confirm-preference fallback. -/
def no_words : List String :=
  ["no", "nope", "nah", "negative", "not really", "don\x27t"]

/-- Python substring containment (`needle in hay`). -/
def strContains (hay needle : String) : Bool :=
  (List.range (hay.data.length + 1)).any
    (fun i => (hay.data.drop i).take needle.data.length == needle.data)

/-- Python `str.lower()`. -/
def lowerStr (s : String) : String := String.mk (s.data.map Char.toLower)

/-- Python `str.strip()`. -/
def stripStr (s : String) : String :=
  String.mk (((s.data.dropWhile isSpaceLike).reverse.dropWhile isSpaceLike).reverse)

/-- Python `opt or default` on an optional string (None and the empty string
are falsy). -/
def py_or_str (o : Option String) (d : String) : String :=
  match o with
  | some s => if s.isEmpty then d else s
  | none => d

/-- Python `opt or current` keeping the optional type. -/
def py_or_opt (o : Option String) (d : Option String) : Option String :=
  match o with
  | some s => if s.isEmpty then d else some s
  | none => d

/-- `dialogAgent.__reset_dialog`: clears the three slots, the candidate and
suggestion fields, the history, and the five active pending-confirmation
fields (the source resets nothing else). -/
def reset_dialog (s : Session) : Session :=
  { s with area := none, price := none, food := none, restaurants := [],
           sugg_restaurant := none, state_history := [],
           pending_slot := none, pending_value := none, pending_state := none,
           pending_prompt := none, pending_message := none }

/-- `setattr(self, slot_to_set, value_to_set)` for the three slot names. -/
def set_slot (s : Session) (slot : String) (v : Option String) : Session :=
  if slot == "area" then { s with area := v }
  else if slot == "price" then { s with price := v }
  else if slot == "food" then { s with food := v }
  else s

/-- `dialogAgent.__confirm_each_preference`: stash the pending slot/value and
produce the confirmation state and message. -/
def confirm_each_preference (s : Session) (slot value ask_state prompt : String) :
    Session × String × String :=
  let chosen_value := if value == "dontcare" then "don\x27t care" else value
  let message := "You chose " ++ slot ++ " " ++ chosen_value ++ ". Is that correct?"
  ({ s with pending_slot := some slot, pending_value := some value,
            pending_state := some ask_state, pending_prompt := some prompt,
            pending_message := some message }, "Confirm preference", message)

/-- `dialogAgent.__start_next_confirmation`: pop and activate the next queued
confirmation, if any. -/
def start_next_confirmation (s : Session) : Session × Option String × Option String :=
  match s.pending_queue with
  | [] => (s, none, none)
  | e :: rest =>
      let s1 := { s with pending_queue := rest }
      let (s2, st, msg) := confirm_each_preference s1 e.slot e.value e.ask_state e.prompt
      (s2, some st, some msg)

/-- Classify the dialog act; with no utterance the classifier is skipped and
the act is the empty label. -/
def classify_act (env : DialogEnv) (utterance : Option String) : String :=
  match utterance with
  | some u => env.classify u
  | none => ""

/-- The restart keyword fallback layered over the classifier output. -/
def restart_fallback (s : Session) (utterance : Option String) (act : String) : String :=
  match utterance with
  | some u =>
      if s.allow_restart && !(u == "") then
        if act != "restart" then
          if restart_phrases.any (fun p => strContains (lowerStr u) p) then "restart" else act
        else act
      else act
  | none => act

/-- The manual yes/no remapping applied in the Confirm-preference state when
the classifier label is neither a confirm nor a deny intent. -/
def yesno_remap (s : Session) (cs : Option String) (utterance : Option String)
    (act : String) : String :=
  if s.confirm_preferences && cs == some "Confirm preference" then
    match utterance with
    | some u =>
        if !(u == "") then
          let normalized := stripStr (lowerStr u)
          if !(confirm_intents.contains act || deny_intents.contains act) then
            let first_word := String.mk ((splitWords normalized.data).headD [])
            if yes_words.contains normalized || yes_words.contains first_word then "confirm"
            else if no_words.contains normalized || no_words.contains first_word then "deny"
            else act
          else act
        else act
    | none => act
  else act

/-- The Confirm-preference handling block: either falls through with possibly
rewritten current state and act (`Sum.inl`), or returns a completed turn
(`Sum.inr`, history already appended). -/
def confirm_block (s : Session) (cs : Option String) (act : String) :
    (Session × Option String × String) ⊕ (Session × Option String × Option String) :=
  if s.confirm_preferences && cs == some "Confirm preference" then
    match s.pending_slot with
    | none => .inl (s, py_or_opt s.pending_state cs, act)
    | some slot =>
        if confirm_intents.contains act then
          let resolved := py_or_opt s.pending_state cs
          let s1 := set_slot s slot s.pending_value
          let s2 := { s1 with pending_slot := none, pending_value := none,
                              pending_state := none, pending_prompt := none,
                              pending_message := none }
          let (s3, nst, nmsg) := start_next_confirmation s2
          match nst with
          | some st => .inr ({ s3 with state_history := s3.state_history ++ [some st] },
                             some st, nmsg)
          | none => .inl (s3, resolved, "")
        else if deny_intents.contains act then
          let nst := py_or_str s.pending_state "1. Welcome"
          let resp := py_or_str s.pending_prompt "Could you repeat that preference?"
          let s1 := { s with pending_slot := none, pending_value := none,
                             pending_state := none, pending_prompt := none,
                             pending_message := none, pending_queue := [] }
          .inr ({ s1 with state_history := s1.state_history ++ [some nst] },
                some nst, some resp)
        else
          let resp := py_or_str s.pending_message "Please answer yes or no so I can confirm."
          .inr ({ s with state_history := s.state_history ++ [some "Confirm preference"] },
                some "Confirm preference", some resp)
  else .inl (s, cs, act)

/-- Whether the current state is one of the four initial slot-filling states. -/
def in_initial_states (cs : Option String) : Bool :=
  cs == some "1. Welcome" || cs == some "2.2 Ask Area" ||
  cs == some "3.2 Ask price" || cs == some "4.2 Ask Food type"

/-- The per-slot acceptance test of the extraction block: a non-absent value
is taken unless it is the wildcard outside that slot's own ask state. -/
def slot_accepts (v : Option String) (cs : Option String) (ask : String) : Bool :=
  match v with
  | none => false
  | some v => (v == "dontcare" && cs == some ask) || v != "dontcare"

/-- One slot of the extraction block, for the area: a non-absent value is
taken unless it is the wildcard outside the area ask state, and is then either
committed directly or captured for confirmation. -/
def capture_area (s : Session) (cs : Option String) (v : Option String) :
    Session × List PendingEntry :=
  match v with
  | some v =>
      if (v == "dontcare" && cs == some "2.2 Ask Area") || v != "dontcare" then
        if s.confirm_preferences then
          (s, [PendingEntry.mk "area" v "2.2 Ask Area" "What part of town do you have in mind?"])
        else ({ s with area := some v }, [])
      else (s, [])
  | none => (s, [])

/-- One slot of the extraction block, for the price range. -/
def capture_price (s : Session) (cs : Option String) (v : Option String) :
    Session × List PendingEntry :=
  match v with
  | some v =>
      if (v == "dontcare" && cs == some "3.2 Ask price") || v != "dontcare" then
        if s.confirm_preferences then
          (s, [PendingEntry.mk "price" v "3.2 Ask price" "How pricy would you like the restaurant to be?"])
        else ({ s with price := some v }, [])
      else (s, [])
  | none => (s, [])

/-- One slot of the extraction block, for the food type. -/
def capture_food (s : Session) (cs : Option String) (v : Option String) :
    Session × List PendingEntry :=
  match v with
  | some v =>
      if (v == "dontcare" && cs == some "4.2 Ask Food type") || v != "dontcare" then
        if s.confirm_preferences then
          (s, [PendingEntry.mk "food" v "4.2 Ask Food type" "What kind of food would you like?"])
        else ({ s with food := some v }, [])
      else (s, [])
  | none => (s, [])

/-- The tail of the extraction block: when confirmation is required and
something was captured, extend the pending queue and (if no confirmation is
already active) pop and ask the first one; otherwise fall through. -/
def queue_captured (s : Session) (cs : Option String) (act : String)
    (entries : List PendingEntry) :
    (Session × Option String × String) ⊕ (Session × Option String × Option String) :=
  if s.confirm_preferences && !entries.isEmpty then
    let s4 := { s with pending_queue := s.pending_queue ++ entries }
    if s.pending_slot == none then
      let (s5, nst, nmsg) := start_next_confirmation s4
      match nst with
      | some st => .inr ({ s5 with state_history := s5.state_history ++ [some st] },
                         some st, nmsg)
      | none =>
          let resp := py_or_str s5.pending_message "Please answer yes or no so I can confirm."
          .inr ({ s5 with state_history := s5.state_history ++ [some "Confirm preference"] },
                some "Confirm preference", some resp)
    else
      let resp := py_or_str s4.pending_message "Please answer yes or no so I can confirm."
      .inr ({ s4 with state_history := s4.state_history ++ [some "Confirm preference"] },
            some "Confirm preference", some resp)
  else .inl (s, cs, act)

/-- The keyword-extraction block for `inform` (or an early `request`/`reqalts`)
acts: run the extractor, accept each slot value per the wildcard gate, then
commit directly or queue for confirmation. A `Sum.inr` is a completed turn
with the history appended. -/
def extraction_block (env : DialogEnv) (s : Session) (cs : Option String)
    (act : String) (utterance : Option String) :
    (Session × Option String × String) ⊕ (Session × Option String × Option String) :=
  if act == "inform" || ((act == "request" || act == "reqalts") && in_initial_states cs) then
    let output := extract_keywords env.lex (utterance.getD "")
    let (s1, entries1) := capture_area s cs output.area
    let (s2, entries2) := capture_price s1 cs output.pricerange
    let (s3, entries3) := capture_food s2 cs output.food
    queue_captured s3 cs act (entries1 ++ entries2 ++ entries3)
  else .inl (s, cs, act)

/-- Steps after the extraction block: drop already-known slots from the ask
order, and re-aim the current state at the first remaining ask state. -/
def reorder_step (s : Session) (cs : Option String) : Session × Option String :=
  let ord := s.prefference_order
  let ord := if s.area != none then ord.erase "2.2 Ask Area" else ord
  let ord := if s.price != none then ord.erase "3.2 Ask price" else ord
  let ord := if s.food != none then ord.erase "4.2 Ask Food type" else ord
  let s := { s with prefference_order := ord }
  let cs := if in_initial_states cs && !ord.isEmpty then some (ord.headD "") else cs
  (s, cs)

/-- The big if/elif chain of `__state_transition` (states Welcome through
Goodbye), including the debug exit override and the history append. -/
def main_branches (env : DialogEnv) (s : Session) (cs : Option String)
    (act : String) (utterance : Option String) : Session × Option String × Option String :=
  let t :=
    if cs == none && utterance == none then
      let resp := if s.informal_utterances then WELCOME_MESSAGE_INFORMAL else WELCOME_MESSAGE
      let s := if s.random_order then { s with prefference_order := env.shuffle s.prefference_order } else s
      (s, some "1. Welcome", some resp)
    else if cs == some "2.2 Ask Area" && s.area == none then
      (s, some "2.2 Ask Area",
       some (if s.informal_utterances then "Where about in town do you wanna eat?"
             else "What part of town do you have in mind?"))
    else if cs == some "3.2 Ask price" && s.price == none then
      (s, some "3.2 Ask price",
       some (if s.informal_utterances then "How pricy do you want your meal to be?"
             else "How pricy would you like the restaurant to be?"))
    else if cs == some "4.2 Ask Food type" && s.food == none then
      (s, some "4.2 Ask Food type",
       some (if s.informal_utterances then "What kind of food are you in the mood for?"
             else "What kind of food would you like?"))
    else if in_initial_states cs && s.area != none && s.price != none && s.food != none then
      (s, some "4.1 Ask for additional preferences",
       some (if s.informal_utterances then "Do you have any additional preferences?"
             else "Do you have any additional preferences?"))
    else if (in_initial_states cs || cs == some "4.1 Ask for additional preferences" ||
             cs == some "5.2 Change 1 of preferences") &&
            s.area != none && s.price != none && s.food != none then
      let u := utterance.getD ""
      let s :=
        if cs == some "4.1 Ask for additional preferences" then
          let s := if strContains u "romantic" then { s with romantic := true } else s
          let s := if strContains u "children" then { s with children := true } else s
          let s := if strContains u "assigned" && strContains u "seats" then { s with assigned_seats := true } else s
          let s := if strContains u "touristic" then { s with touristic := true } else s
          s
        else s
      let possible := look_up_restaurants env.db (s.area.getD "") (s.price.getD "") (s.food.getD "")
      let filtered := reasoning_rules_filter (sessionFlags s) possible
      if filtered.length == 0 then
        (s, some "5.2 Change 1 of preferences",
         some (if s.informal_utterances then
                 "Sorry man, no restaurants meet your preference, do you wanna change the area, price range or food type?"
               else
                 "There are no restaurants that meet your requirements. Would you like to change the area, pricerange or foodtype? And what would you like to change it to?"))
      else if filtered.length == 1 then
        let r := filtered.headD emptyRestaurant
        let msg :=
          if s.informal_utterances then
            r.restaurantname ++ " is the only match. Do you want to know something about this restaurant?"
          else
            r.restaurantname ++ " is the only restaurant that meet your requirements. " ++
              (r.reasoning_explained.getD "") ++ " Would you like some infromation about this restaurant?"
        ({ s with sugg_restaurant := some r }, some "6.1 Suggest restaurant", some msg)
      else
        let r := env.choice filtered
        let s := { s with sugg_restaurant := some r, restaurants := filtered.erase r }
        let msg :=
          if s.informal_utterances then
            r.restaurantname ++ " is just what you. where looking for. " ++
              (r.reasoning_explained.getD "") ++ " Do you want to know something about this restaurant?"
          else
            r.restaurantname ++ " is a restaurant that meet your requirements. " ++
              (r.reasoning_explained.getD "") ++ " Would you like some infromation about this restaurant or an alternative restaurant?"
        (s, some "6.1 Suggest restaurant", some msg)
    else if cs == some "6.1 Suggest restaurant" && act == "reqalts" then
      if s.restaurants.length ≥ 1 then
        let r := env.choice s.restaurants
        let s := { s with sugg_restaurant := some r, restaurants := s.restaurants.erase r }
        let only := if s.restaurants.length == 0 then "the only other" else "another"
        let msg :=
          if s.informal_utterances then
            r.restaurantname ++ " is " ++ only ++ " match. " ++ (r.reasoning_explained.getD "") ++
              " Do you want to know something about this restaurant?"
          else
            r.restaurantname ++ " is " ++ only ++ " restaurant that meet your requirements. " ++
              (r.reasoning_explained.getD "") ++
              " Would you like some infromation about this restaurant or a different restaurant?"
        (s, some "6.1 Suggest restaurant", some msg)
      else
        (s, some "6.1 Suggest restaurant",
         some (if s.informal_utterances then ""
               else "There are no other restaurant left that meet your requirements. Would you like some infromation about the last suggested restaurant?"))
    else if (cs == some "6.1 Suggest restaurant" || cs == some "7.1 Provide information questioned" ||
             cs == some "8.1 Last restaurant statement") && act == "request" then
      let u := utterance.getD ""
      let r := s.sugg_restaurant.getD emptyRestaurant
      let msg :=
        if ["phone", "phonenumber", "telephone", "number"].any (fun w => strContains u w) then
          if s.informal_utterances then "You can call " ++ r.restaurantname ++ " with " ++ r.phone
          else "The phone number of restaurant " ++ r.restaurantname ++ " is " ++ r.phone
        else if ["address", "adress", "street"].any (fun w => strContains u w) then
          if s.informal_utterances then r.restaurantname ++ " is on " ++ r.addr
          else "The adres of " ++ r.restaurantname ++ " is " ++ r.addr
        else if ["postal", "postcode", "zip", "post", "code"].any (fun w => strContains u w) then
          if s.informal_utterances then "You can find " ++ r.restaurantname ++ " over here " ++ r.postcode
          else "The postcode of " ++ r.restaurantname ++ " is " ++ r.postcode
        else
          if s.informal_utterances then
            "Here you have some information about " ++ r.restaurantname ++ ", phone number: \x27" ++
              r.phone ++ "\x27, address: \x27" ++ r.addr ++ "\x27 and postcode: \x27" ++ r.postcode ++ "\x27"
          else
            "The detail information of " ++ r.restaurantname ++ " are phone number: \x27" ++
              r.phone ++ "\x27, address: \x27" ++ r.addr ++ "\x27 and postcode: \x27" ++ r.postcode ++ "\x27"
      (s, some "7.1 Provide information questioned", some msg)
    else if (cs == some "6.1 Suggest restaurant" || cs == some "7.1 Provide information questioned") &&
            (act == "confirm" || act == "affirm" || act == "null") then
      let r := s.sugg_restaurant.getD emptyRestaurant
      (s, some "8.1 Last restaurant statement",
       some (if s.informal_utterances then
               "Restaurant " ++ r.restaurantname ++ " is great! You will love it!"
             else "Restaurant " ++ r.restaurantname ++ " is an outstanding restaurant."))
    else if (cs == some "7.1 Provide information questioned" || cs == some "8.1 Last restaurant statement") &&
            act == "bye" then
      (s, some "9.1 Goodbye", none)
    else
      (s, cs,
       some (if s.informal_utterances then "Sorry man, didn\x27t get that can you rephrase it?"
             else "I didn\x27t understand, could you rephrase it in a different way?"))
  let t2 :=
    if utterance == some "exit" && t.1.debug_mode then
      ((some "9.1 Goodbye" : Option String), (some "Goodbye!" : Option String))
    else t.2
  ({ t.1 with state_history := t.1.state_history ++ [t2.1] }, t2)

/-- `dialogAgent.__state_transition`: one full turn, returning the updated
session, the next state, and the system response. -/
def state_transition (env : DialogEnv) (s : Session) (cs : Option String)
    (utterance : Option String) : Session × Option String × Option String :=
  let act0 := classify_act env utterance
  let act1 := restart_fallback s utterance act0
  if s.allow_restart && act1 == "restart" then
    let s1 := reset_dialog s
    let resp := if s1.informal_utterances then WELCOME_MESSAGE_INFORMAL else WELCOME_MESSAGE
    ({ s1 with state_history := s1.state_history ++ [some "1. Welcome"] },
     some "1. Welcome", some resp)
  else
    let act2 := yesno_remap s cs utterance act1
    match confirm_block s cs act2 with
    | .inr r => r
    | .inl (s1, cs1, act3) =>
        match extraction_block env s1 cs1 act3 utterance with
        | .inr r => r
        | .inl (s2, cs2, act4) =>
            main_branches env (reorder_step s2 cs2).1 (reorder_step s2 cs2).2 act4 utterance

/-! ## Specification-side predicates and concrete fixtures -/

/-- Following the spec wording for the fuzzy matcher: whether one candidate
phrase resolves (through the synonym map) to a legal value of the requested
kind (`dc = true` for the wildcard, `dc = false` for a concrete value) and has
some considered same-length segment within its per-phrase distance budget. -/
def cand_hit (kmap : List (String × String)) (options : List String)
    (tokens : List (List Char)) (dc : Bool) (candidate : String) : Bool :=
  let cand := clean_chars candidate.data
  !cand.isEmpty &&
  (match map_keyword_to_option (some cand) kmap options with
   | some mapped =>
       (if dc then mapped == dontcareChars else !(mapped == dontcareChars)) &&
       (segmentsFor tokens (max 1 (splitWords cand).length)).any
         (fun seg => decide (3 ≤ seg.length) && decide (lev_distance seg cand ≤ allowed_distance 3 cand))
   | none => false)

/-- Following the spec wording: some concrete candidate phrase lies within its
per-phrase distance budget for this text. -/
def spec_concrete_hit (kmap : List (String × String)) (options : List String)
    (text : List Char) : Bool :=
  (options ++ kmap.map (·.1)).any (cand_hit kmap options (fuzzy_tokens text) false)

/-- Following the spec wording: some wildcard candidate phrase lies within its
per-phrase distance budget for this text. -/
def spec_dontcare_hit (kmap : List (String × String)) (options : List String)
    (text : List Char) : Bool :=
  (options ++ kmap.map (·.1)).any (cand_hit kmap options (fuzzy_tokens text) true)

/-- The running invariant of the fuzzy-matcher fold (with the default distance
budget 3, so the never-seen distance is 4). -/
def fuzzy_inv (st : FuzzyState) : Prop :=
  (st.best_value = none ↔ st.best_distance = 4) ∧
  st.best_distance ≤ 4 ∧
  (st.best_dc_value = none ↔ st.best_dc_distance = 4) ∧
  st.best_dc_distance ≤ 4 ∧
  (∀ v, st.best_value = some v → v ≠ dontcareChars) ∧
  (∀ v, st.best_dc_value = some v → v = dontcareChars)

/-- All slot/value pairs awaiting a yes/no: the active pending pair followed by
the queued ones, in order. -/
def all_pending (s : Session) : List (String × String) :=
  (match s.pending_slot with
   | some sl => [(sl, s.pending_value.getD "")]
   | none => []) ++ s.pending_queue.map (fun e => (e.slot, e.value))

/-- The accepted slot/value pairs of one extraction, in capture order, as the
(amended) claim words the acceptance rule. -/
def spec_captured (out : ExtractOutput) (cs : Option String) : List (String × String) :=
  (if slot_accepts out.area cs "2.2 Ask Area" then [("area", out.area.getD "")] else []) ++
  (if slot_accepts out.pricerange cs "3.2 Ask price" then [("price", out.pricerange.getD "")] else []) ++
  (if slot_accepts out.food cs "4.2 Ask Food type" then [("food", out.food.getD "")] else [])

/-- An environment with a constant classifier label, an empty restaurant table
and first-element randomness, for concrete runs. -/
def constEnv (lex : Lexicon) (label : String) : DialogEnv :=
  { lex := lex, classify := fun _ => label, db := [],
    choice := fun l => l.headD emptyRestaurant, shuffle := id }

/-- A freshly constructed session (no configuration file, no debug). -/
def baseSession : Session := init_session ConfigSource.absent false

/-- Only the touristic secondary preference is active. -/
def flagsTouristic : Flags := ⟨true, false, false, false⟩

/-- A cheap romanian restaurant with good food quality. -/
def romanianRest : Restaurant :=
  { restaurantname := "the hungry hen", pricerange := "cheap", area := "north",
    food := "romanian", phone := "01", addr := "1 one street", postcode := "cb1",
    food_quality := "good", crowdedness := "quiet", length_of_stay := "short",
    reasoning_explained := none }

/-- A cheap british restaurant with good food quality. -/
def britishRest : Restaurant :=
  { restaurantname := "the copper kettle", pricerange := "cheap", area := "north",
    food := "british", phone := "02", addr := "2 two street", postcode := "cb2",
    food_quality := "good", crowdedness := "quiet", length_of_stay := "short",
    reasoning_explained := none }

/-- A pending food confirmation queued from an earlier capture. -/
def pendingFoodEntry : PendingEntry :=
  ⟨"food", "thai", "4.2 Ask Food type", "What kind of food would you like?"⟩

/-- A session ready for the restart counterexample: slots filled, a suggestion
and an alternative on hand, the touristic flag set, and one queued
confirmation left over. -/
def sessionC1 : Session :=
  { baseSession with
      area := some "north", price := some "cheap", food := some "thai",
      sugg_restaurant := some romanianRest, restaurants := [britishRest],
      allow_restart := true, confirm_preferences := true, touristic := true,
      pending_queue := [pendingFoodEntry], prefference_order := [],
      state_history := [some "6.1 Suggest restaurant"] }

/-- A session in the Confirm-preference state with an active pending area
value and one more queued capture. -/
def sessionC2 : Session :=
  { baseSession with
      confirm_preferences := true,
      pending_slot := some "area", pending_value := some "north",
      pending_state := some "2.2 Ask Area",
      pending_prompt := some "What part of town do you have in mind?",
      pending_message := some "You chose area north. Is that correct?",
      pending_queue := [pendingFoodEntry] }

/-! ## Helper lemmas: the reasoning filter as an order-preserving filter -/

/-- The survival condition, stated the way the spec states the rules: a
candidate survives exactly when it fails no active flag rule. -/
def passes_rules (f : Flags) (r : Restaurant) : Bool :=
  (!f.touristic || (!(r.food == "romanian") && (r.pricerange == "cheap" && r.food_quality == "good"))) &&
  (!f.assigned_seats || r.crowdedness == "busy") &&
  (!f.children || !(r.length_of_stay == "long")) &&
  (!f.romantic || (r.length_of_stay == "long" && !(r.crowdedness == "busy")))

/-- The rule-relevant fields of a record (everything except the annotation). -/
def coreOf (r : Restaurant) : String × String × String × String × String :=
  (r.food, r.pricerange, r.food_quality, r.crowdedness, r.length_of_stay)

theorem setOrAppend_core (r : Restaurant) (a b : String) :
    coreOf (setOrAppend r a b) = coreOf r := by
  unfold setOrAppend coreOf
  cases r.reasoning_explained <;> rfl

theorem touristic_step_core (a : Bool) (rr : Restaurant × Bool) :
    coreOf (touristic_step a rr).1 = coreOf rr.1 := by
  obtain ⟨r, rem⟩ := rr
  unfold touristic_step
  cases a
  · rfl
  · by_cases h1 : r.food = "romanian" <;>
      by_cases h2 : r.pricerange = "cheap" <;>
      by_cases h3 : r.food_quality = "good" <;>
      simp [h1, h2, h3, coreOf]

theorem assigned_step_core (a : Bool) (rr : Restaurant × Bool) :
    coreOf (assigned_step a rr).1 = coreOf rr.1 := by
  obtain ⟨r, rem⟩ := rr
  unfold assigned_step
  cases a
  · rfl
  · by_cases h1 : r.crowdedness = "busy" <;>
      cases hre : r.reasoning_explained <;>
      simp [h1, hre, coreOf, setOrAppend]

theorem children_step_core (a : Bool) (rr : Restaurant × Bool) :
    coreOf (children_step a rr).1 = coreOf rr.1 := by
  obtain ⟨r, rem⟩ := rr
  unfold children_step
  cases a
  · rfl
  · by_cases h1 : r.length_of_stay = "long" <;>
      cases hre : r.reasoning_explained <;>
      simp [h1, hre, coreOf, setOrAppend]

theorem romantic_step_core (a : Bool) (rr : Restaurant × Bool) :
    coreOf (romantic_step a rr).1 = coreOf rr.1 := by
  obtain ⟨r, rem⟩ := rr
  unfold romantic_step
  cases a
  · rfl
  · by_cases h1 : r.length_of_stay = "long" <;>
      by_cases h2 : r.crowdedness = "busy" <;>
      cases hre : r.reasoning_explained <;>
      simp [h1, h2, hre, coreOf, setOrAppend]

theorem process_restaurant_core (f : Flags) (r : Restaurant) :
    coreOf (process_restaurant f r).1 = coreOf r := by
  unfold process_restaurant
  rw [romantic_step_core, children_step_core, assigned_step_core, touristic_step_core]

theorem passes_rules_congr (f : Flags) (r1 r2 : Restaurant)
    (h : coreOf r1 = coreOf r2) : passes_rules f r1 = passes_rules f r2 := by
  unfold coreOf at h
  injection h with h1 h
  injection h with h2 h
  injection h with h3 h
  injection h with h4 h5
  unfold passes_rules
  rw [h1, h2, h3, h4, h5]

theorem touristic_step_snd (a : Bool) (r : Restaurant) (rem : Bool) :
    (touristic_step a (r, rem)).2 =
      (rem || (a && !(!(r.food == "romanian") && (r.pricerange == "cheap" && r.food_quality == "good")))) := by
  unfold touristic_step
  cases a
  · simp
  · by_cases h1 : r.food = "romanian" <;>
      by_cases h2 : r.pricerange = "cheap" <;>
      by_cases h3 : r.food_quality = "good" <;>
      simp [h1, h2, h3]

theorem assigned_step_snd (a : Bool) (r : Restaurant) (rem : Bool) :
    (assigned_step a (r, rem)).2 = (rem || (a && !(r.crowdedness == "busy"))) := by
  unfold assigned_step
  cases a
  · simp
  · by_cases h1 : r.crowdedness = "busy" <;> simp [h1]

theorem children_step_snd (a : Bool) (r : Restaurant) (rem : Bool) :
    (children_step a (r, rem)).2 = (rem || (a && (r.length_of_stay == "long"))) := by
  unfold children_step
  cases a
  · simp
  · by_cases h1 : r.length_of_stay = "long" <;> simp [h1]

theorem romantic_step_snd (a : Bool) (r : Restaurant) (rem : Bool) :
    (romantic_step a (r, rem)).2 =
      (rem || (a && !(r.length_of_stay == "long" && !(r.crowdedness == "busy")))) := by
  unfold romantic_step
  cases a
  · simp
  · by_cases h1 : r.length_of_stay = "long" <;>
      by_cases h2 : r.crowdedness = "busy" <;> simp [h1, h2]

theorem coreOf_fields {r1 r2 : Restaurant} (h : coreOf r1 = coreOf r2) :
    r1.food = r2.food ∧ r1.pricerange = r2.pricerange ∧ r1.food_quality = r2.food_quality ∧
    r1.crowdedness = r2.crowdedness ∧ r1.length_of_stay = r2.length_of_stay := by
  unfold coreOf at h
  injection h with a h
  injection h with b h
  injection h with c h
  injection h with d e
  exact ⟨a, b, c, d, e⟩

theorem process_restaurant_snd (f : Flags) (r : Restaurant) :
    (process_restaurant f r).2 = !passes_rules f r := by
  unfold process_restaurant
  rcases e1 : touristic_step f.touristic (r, false) with ⟨r1, b1⟩
  rcases e2 : assigned_step f.assigned_seats (r1, b1) with ⟨r2, b2⟩
  rcases e3 : children_step f.children (r2, b2) with ⟨r3, b3⟩
  have c1 := touristic_step_core f.touristic (r, false)
  rw [e1] at c1
  have c2 := assigned_step_core f.assigned_seats (r1, b1)
  rw [e2] at c2
  have c3 := children_step_core f.children (r2, b2)
  rw [e3] at c3
  have hb1 := touristic_step_snd f.touristic r false
  rw [e1] at hb1
  have hb2 := assigned_step_snd f.assigned_seats r1 b1
  rw [e2] at hb2
  have hb3 := children_step_snd f.children r2 b2
  rw [e3] at hb3
  have hb4 := romantic_step_snd f.romantic r3 b3
  obtain ⟨-, -, -, f1c, f1l⟩ := coreOf_fields c1
  obtain ⟨-, -, -, f2c, f2l⟩ := coreOf_fields c2
  obtain ⟨-, -, -, f3c, f3l⟩ := coreOf_fields c3
  dsimp only at hb1 hb2 hb3 f1c f1l f2c f2l f3c f3l
  rw [hb4, hb3, hb2, hb1, f3c, f3l, f2c, f2l, f1c, f1l]
  rcases f with ⟨t, a, c, ro⟩
  unfold passes_rules
  dsimp only
  generalize (r.food == "romanian") = F
  generalize (r.pricerange == "cheap") = P
  generalize (r.food_quality == "good") = Q
  generalize (r.crowdedness == "busy") = B
  generalize (r.length_of_stay == "long") = L
  cases F <;> cases P <;> cases Q <;> cases B <;> cases L <;>
    cases t <;> cases a <;> cases c <;> cases ro <;> rfl

theorem foldl_erase_of_not_mem {α : Type} [DecidableEq α] :
    ∀ (rem : List α) (x : α) (l : List α), (∀ e ∈ rem, e ≠ x) →
      rem.foldl (fun acc y => acc.erase y) (x :: l) =
        x :: rem.foldl (fun acc y => acc.erase y) l := by
  intro rem
  induction rem with
  | nil => intro x l _; rfl
  | cons e rem ih =>
    intro x l h
    have hne : e ≠ x := h e (by simp)
    have hx : ((x :: l).erase e) = x :: l.erase e := by
      rw [List.erase_cons]
      simp [Ne.symm hne]
    simp only [List.foldl_cons, hx]
    exact ih x (l.erase e) (fun e2 he2 => h e2 (by simp [he2]))

theorem foldl_erase_filter {α : Type} [DecidableEq α] (p : α → Bool) :
    ∀ l : List α, (l.filter (fun x => !p x)).foldl (fun acc y => acc.erase y) l = l.filter p := by
  intro l
  induction l with
  | nil => rfl
  | cons x l ih =>
    cases hx : p x
    · have hfilter : (x :: l).filter (fun y => !p y) = x :: l.filter (fun y => !p y) := by
        simp [List.filter_cons, hx]
      rw [hfilter]
      simp only [List.foldl_cons, List.erase_cons_head]
      rw [ih]
      simp [List.filter_cons, hx]
    · have hfilter : (x :: l).filter (fun y => !p y) = l.filter (fun y => !p y) := by
        simp [List.filter_cons, hx]
      rw [hfilter]
      have hmem : ∀ e ∈ l.filter (fun y => !p y), e ≠ x := by
        intro e he heq
        have := List.of_mem_filter he
        rw [heq, hx] at this
        simp at this
      rw [foldl_erase_of_not_mem _ x l hmem, ih]
      simp [List.filter_cons, hx]

/-- The reasoning filter equals an order-preserving `filter` over the
annotated input: the shared backbone of the filter claims. -/
theorem reasoning_filter_characterization (f : Flags) (rs : List Restaurant) :
    reasoning_rules_filter f rs =
      (rs.map (fun r => (process_restaurant f r).1)).filter (fun x => passes_rules f x) := by
  unfold reasoning_rules_filter
  have hupd : (rs.map (process_restaurant f)).map (·.1) =
      rs.map (fun r => (process_restaurant f r).1) := by
    rw [List.map_map]; rfl
  have hto : ((rs.map (process_restaurant f)).filter (·.2)).map (·.1)
      = (rs.map (fun r => (process_restaurant f r).1)).filter (fun x => !passes_rules f x) := by
    induction rs with
    | nil => rfl
    | cons r rs ih =>
      have hsnd : (process_restaurant f r).2 = !passes_rules f r := process_restaurant_snd f r
      have hfst : passes_rules f (process_restaurant f r).1 = passes_rules f r :=
        passes_rules_congr f _ _ (process_restaurant_core f r)
      cases hp : passes_rules f r <;>
        simp [List.filter_cons, hsnd, hfst, hp, ih]
  simp only [hupd, hto]
  exact foldl_erase_filter (fun x => passes_rules f x) (rs.map (fun r => (process_restaurant f r).1))

/-! ## Claim theorems -/

/-- C8: if the configuration file is absent, or is unreadable/malformed, the
dialog agent is still constructed (the embedding of `__init__` is total) and
all four behaviour toggles — require-confirmation, allow-restart,
informal-phrasing, randomize-slot-order — are false. -/
theorem C8_config_defaults_false :
    (∀ d : Bool,
      (init_session ConfigSource.absent d).confirm_preferences = false ∧
      (init_session ConfigSource.absent d).allow_restart = false ∧
      (init_session ConfigSource.absent d).informal_utterances = false ∧
      (init_session ConfigSource.absent d).random_order = false) ∧
    (∀ d : Bool,
      (init_session ConfigSource.malformed d).confirm_preferences = false ∧
      (init_session ConfigSource.malformed d).allow_restart = false ∧
      (init_session ConfigSource.malformed d).informal_utterances = false ∧
      (init_session ConfigSource.malformed d).random_order = false) := by
  exact ⟨fun d => ⟨rfl, rfl, rfl, rfl⟩, fun d => ⟨rfl, rfl, rfl, rfl⟩⟩

/-- C9: for every candidate list and every flag setting, the reasoning filter
returns exactly the candidates (annotated in place by the loop) that fail no
active flag rule, as a subsequence of the in-place-annotated input list:
survivors come from the input, keep their relative order, and survive exactly
when `passes_rules` holds. -/
theorem C9_filter_is_sublist (f : Flags) (rs : List Restaurant) :
    reasoning_rules_filter f rs =
      (rs.map (fun r => (process_restaurant f r).1)).filter (fun x => passes_rules f x) ∧
    (reasoning_rules_filter f rs).Sublist (rs.map (fun r => (process_restaurant f r).1)) := by
  refine ⟨reasoning_filter_characterization f rs, ?_⟩
  rw [reasoning_filter_characterization f rs]
  exact List.filter_sublist _

/-- C5: under an active touristic flag every candidate whose food is romanian
is removed, even a cheap one with good food quality: no survivor of the
reasoning filter serves romanian food. -/
theorem C5_touristic_excludes_romanian (f : Flags) (rs : List Restaurant)
    (h : f.touristic = true) :
    ∀ x ∈ reasoning_rules_filter f rs, x.food ≠ "romanian" := by
  intro x hx hfood
  rw [reasoning_filter_characterization] at hx
  have hp := List.of_mem_filter hx
  unfold passes_rules at hp
  rw [h, hfood] at hp
  simp at hp

/-- C5 witness: with touristic active, filtering a cheap/good romanian
candidate together with a cheap/good british one keeps only the british one,
whose food the theorem then shows is not romanian. -/
theorem C5_touristic_witness :
    ({ britishRest with reasoning_explained := some "This restaurant is great for tourists, because the food quality is good and the food is cheap." } : Restaurant).food ≠ "romanian" :=
  C5_touristic_excludes_romanian flagsTouristic [romanianRest, britishRest] (by decide) _ (by decide)

/-- C6: on "I want north american food" the extractor resolves the food slot
to the dataset cuisine "north american" and leaves the area slot absent (never
area = north): the food span is masked before the area match is attempted. -/
theorem C6_north_american_masking :
    extract_keywords mainLex "I want north american food" =
      { pricerange := none, area := none, food := some "north american" } := by
  decide

/-- C1 (code bug evaluation): with restarts allowed, three filled slots, a
current suggestion, an alternative list, the touristic flag set and one queued
confirmation, a restart turn does clear the slots, the suggestion and the
alternatives and does emit the greeting — but it leaves the touristic flag set
and the pending queue non-empty, contradicting the claimed full reset. -/
theorem C1_restart_retains_flags_and_queue :
    (state_transition (constEnv mainLex "restart") sessionC1 (some "6.1 Suggest restaurant") (some "restart")).1.touristic = true ∧
    (state_transition (constEnv mainLex "restart") sessionC1 (some "6.1 Suggest restaurant") (some "restart")).1.pending_queue = [pendingFoodEntry] ∧
    (state_transition (constEnv mainLex "restart") sessionC1 (some "6.1 Suggest restaurant") (some "restart")).1.area = none ∧
    (state_transition (constEnv mainLex "restart") sessionC1 (some "6.1 Suggest restaurant") (some "restart")).1.price = none ∧
    (state_transition (constEnv mainLex "restart") sessionC1 (some "6.1 Suggest restaurant") (some "restart")).1.food = none ∧
    (state_transition (constEnv mainLex "restart") sessionC1 (some "6.1 Suggest restaurant") (some "restart")).1.sugg_restaurant = none ∧
    (state_transition (constEnv mainLex "restart") sessionC1 (some "6.1 Suggest restaurant") (some "restart")).1.restaurants = [] ∧
    (state_transition (constEnv mainLex "restart") sessionC1 (some "6.1 Suggest restaurant") (some "restart")).2.1 = some "1. Welcome" ∧
    (state_transition (constEnv mainLex "restart") sessionC1 (some "6.1 Suggest restaurant") (some "restart")).2.2 = some WELCOME_MESSAGE := by
  decide

/-! ## Helper lemmas: the extractor output -/

theorem String_mk_eq (l : List Char) (s : String) : String.mk l = s ↔ l = s.data := by
  constructor
  · intro h
    rw [← h]
  · intro h
    rw [h]

/-- The unresolved-sentinel characterization of the two final passes. -/
theorem finalize_map_unknown (v : Option (List Char)) (m : Bool) :
    ((finalize_slot v m).map String.mk = some "unknown" ↔
      (m = true ∧ (v = none ∨ v = some unknownChars))) ∧
    (v = none → m = false → (finalize_slot v m).map String.mk = none) := by
  constructor
  · cases v with
    | none =>
        cases m <;> simp [finalize_slot, String_mk_eq, unknownChars]
    | some s =>
        cases m <;> by_cases hs : s = unknownChars <;>
          simp [finalize_slot, hs, String_mk_eq, unknownChars]
  · intro hv hm
    rw [hv, hm]
    rfl

/-- Only-when-mentioned direction: a produced `"unknown"` forces the mention
flag. -/
theorem finalize_map_unknown_mention (v : Option (List Char)) (m : Bool)
    (h : (finalize_slot v m).map String.mk = some "unknown") : m = true :=
  ((finalize_map_unknown v m).1.mp h).1

theorem map_keyword_mem (k : Option (List Char)) (kmap : List (String × String))
    (options : List String) (v : List Char)
    (h : map_keyword_to_option k kmap options = some v) : ∃ o ∈ options, o.data = v := by
  unfold map_keyword_to_option at h
  cases k with
  | none => simp at h
  | some kk =>
      dsimp only at h
      split at h
      · simp at h
      · split at h
        · next ha =>
            injection h with h
            obtain ⟨o, ho, hov⟩ := List.any_eq_true.mp ha
            refine ⟨o, ho, ?_⟩
            rw [← h]
            simpa using hov
        · simp at h

theorem seg_fold_mem (mapped cand : List Char) (allowed : Nat) (P : List Char → Prop)
    (hP : P mapped) :
    ∀ (segs : List (List Char)) (st : FuzzyState),
      (∀ v, st.best_value = some v → P v) → (∀ v, st.best_dc_value = some v → P v) →
      (∀ v, (segs.foldl (fuzzy_update_seg mapped cand allowed) st).best_value = some v → P v) ∧
      (∀ v, (segs.foldl (fuzzy_update_seg mapped cand allowed) st).best_dc_value = some v → P v) := by
  intro segs
  induction segs with
  | nil => intro st h1 h2; exact ⟨h1, h2⟩
  | cons seg segs ih =>
      intro st h1 h2
      apply ih
      · intro v hv
        unfold fuzzy_update_seg at hv
        split at hv
        · exact h1 v hv
        · dsimp only at hv
          split at hv
          · exact h1 v hv
          · split at hv
            · split at hv
              · exact h1 v hv
              · exact h1 v hv
            · split at hv
              · injection hv with hv
                rw [← hv]
                exact hP
              · exact h1 v hv
      · intro v hv
        unfold fuzzy_update_seg at hv
        split at hv
        · exact h2 v hv
        · dsimp only at hv
          split at hv
          · exact h2 v hv
          · split at hv
            · split at hv
              · injection hv with hv
                rw [← hv]
                exact hP
              · exact h2 v hv
            · split at hv
              · exact h2 v hv
              · exact h2 v hv

theorem fuzzy_fold_mem (kmap : List (String × String)) (options : List String)
    (md : Nat) (tokens : List (List Char)) (P : List Char → Prop)
    (hstep : ∀ (c : String) (mapped : List Char),
      map_keyword_to_option (some (clean_chars c.data)) kmap options = some mapped → P mapped) :
    ∀ (cands : List String) (st : FuzzyState),
      (∀ v, st.best_value = some v → P v) → (∀ v, st.best_dc_value = some v → P v) →
      (∀ v, (cands.foldl (fuzzy_update_cand kmap options md tokens) st).best_value = some v → P v) ∧
      (∀ v, (cands.foldl (fuzzy_update_cand kmap options md tokens) st).best_dc_value = some v → P v) := by
  intro cands
  induction cands with
  | nil => intro st h1 h2; exact ⟨h1, h2⟩
  | cons c cands ih =>
      intro st h1 h2
      have hstep1 : ∀ v, (fuzzy_update_cand kmap options md tokens st c).best_value = some v → P v := by
        intro v hv
        unfold fuzzy_update_cand at hv
        dsimp only at hv
        split at hv
        · exact h1 v hv
        · split at hv
          · exact h1 v hv
          · next mapped hmk =>
              split at hv
              · exact h1 v hv
              · exact (seg_fold_mem _ _ _ P (hstep c mapped hmk) _ st h1 h2).1 v hv
      have hstep2 : ∀ v, (fuzzy_update_cand kmap options md tokens st c).best_dc_value = some v → P v := by
        intro v hv
        unfold fuzzy_update_cand at hv
        dsimp only at hv
        split at hv
        · exact h2 v hv
        · split at hv
          · exact h2 v hv
          · next mapped hmk =>
              split at hv
              · exact h2 v hv
              · exact (seg_fold_mem _ _ _ P (hstep c mapped hmk) _ st h1 h2).2 v hv
      exact ih _ hstep1 hstep2

theorem fuzzy_find_mem (text : List Char) (kmap : List (String × String))
    (options : List String) (md : Nat) (v : List Char)
    (h : fuzzy_find_keyword text kmap options md = some v) : ∃ o ∈ options, o.data = v := by
  unfold fuzzy_find_keyword at h
  dsimp only at h
  split at h
  · simp at h
  · have hm := fuzzy_fold_mem kmap options md (fuzzy_tokens text)
      (fun w => ∃ o ∈ options, o.data = w)
      (fun c mapped hmk => map_keyword_mem _ _ _ _ hmk)
      (options ++ kmap.map (·.1)) ⟨none, md + 1, none, md + 1⟩
      (by intro w hw; simp at hw) (by intro w hw; simp at hw)
    split at h
    · exact hm.1 v h
    · split at h
      · exact hm.2 v h
      · simp at h

theorem merge_value_mem (a b : Option (List Char)) (P : List Char → Prop)
    (ha : ∀ w, a = some w → P w) (hb : ∀ w, b = some w → P w) :
    ∀ w, merge_value a b = some w → P w := by
  intro w h
  unfold merge_value at h
  split at h
  · cases hb' : b with
    | some z => rw [hb'] at h; exact hb w (hb'.trans (by injection h with h; rw [h]))
    | none => rw [hb'] at h; exact ha w h
  · exact ha w h

theorem slot_range (v : Option (List Char)) (m : Bool) (options : List String)
    (hv : ∀ w, v = some w → ∃ o ∈ options, o.data = w) :
    (finalize_slot v m).map String.mk ∈
      (none : Option String) :: (options.map some ++ [some "unknown"]) := by
  have hunk : String.mk unknownChars = "unknown" := by rw [String_mk_eq]; rfl
  cases hveq : v with
  | none =>
      cases m
      · simp [finalize_slot]
      · have hfin : finalize_slot none true = some unknownChars := rfl
        rw [hfin]
        show some (String.mk unknownChars) ∈ _
        rw [hunk]
        simp
  | some w =>
      obtain ⟨o, ho, hod⟩ := hv w hveq
      have hmk : String.mk w = o := by rw [String_mk_eq, hod]
      by_cases hw : (w == unknownChars && !m) = true
      · have hfin : finalize_slot (some w) m = none := by
          unfold finalize_slot
          dsimp only
          rw [if_pos hw]
        rw [hfin]
        simp
      · have hfin : finalize_slot (some w) m = some w := by
          unfold finalize_slot
          dsimp only
          rw [if_neg hw]
        rw [hfin]
        show some (String.mk w) ∈ _
        rw [hmk]
        simp only [List.mem_cons, List.mem_append]
        exact Or.inr (Or.inl (List.mem_map_of_mem some ho))

/-- C3 (amended): for every lexicon and utterance, and each of the three
slots, the extractor returns the `"unknown"` sentinel exactly when the
slot-mention detector fired and the regex-plus-fuzzy resolution pipeline
produced nothing (or the literal sentinel); and when the pipeline produced
nothing without a detected mention, the slot is absent. In particular a
mentioned but unresolvable slot is never silently absent. -/
theorem C3_unresolved_iff_mentioned (lex : Lexicon) (text : String) :
    ((extract_keywords lex text).pricerange = some "unknown" ↔
      (price_mention lex text.data = true ∧
       (merged_price lex text.data = none ∨ merged_price lex text.data = some unknownChars))) ∧
    (merged_price lex text.data = none → price_mention lex text.data = false →
      (extract_keywords lex text).pricerange = none) ∧
    ((extract_keywords lex text).area = some "unknown" ↔
      (area_mention lex text.data = true ∧
       (merged_area lex text.data = none ∨ merged_area lex text.data = some unknownChars))) ∧
    (merged_area lex text.data = none → area_mention lex text.data = false →
      (extract_keywords lex text).area = none) ∧
    ((extract_keywords lex text).food = some "unknown" ↔
      (food_mention lex text.data = true ∧
       (merged_food lex text.data = none ∨ merged_food lex text.data = some unknownChars))) ∧
    (merged_food lex text.data = none → food_mention lex text.data = false →
      (extract_keywords lex text).food = none) :=
  ⟨(finalize_map_unknown _ _).1, (finalize_map_unknown _ _).2,
   (finalize_map_unknown _ _).1, (finalize_map_unknown _ _).2,
   (finalize_map_unknown _ _).1, (finalize_map_unknown _ _).2⟩

/-- C3 counterexample: the utterance named by the claim as one with no
resolvable price value, "what about the price", in fact resolves the price
slot — the fuzzy matcher recovers the synonym "pricey" from the token "price"
at edit distance 1 — so the extractor returns expensive, not the unresolved
sentinel. -/
theorem C3_price_example_counterexample :
    (extract_keywords mainLex "what about the price").pricerange = some "expensive" ∧
    (extract_keywords mainLex "what about the price").pricerange ≠ some "unknown" := by
  decide

/-- C3 witness: on "what about the cost" the price slot is mentioned but
unresolvable, and the theorem yields the unresolved sentinel. -/
theorem C3_unresolved_witness :
    (extract_keywords mainLex "what about the cost").pricerange = some "unknown" :=
  ((C3_unresolved_iff_mentioned mainLex "what about the cost").1).mpr (by decide)

/-- C10: for every lexicon and every input string, the extractor returns a
record with exactly the keys pricerange, area and food (the `ExtractOutput`
record), and each value is absent, the `"unknown"` sentinel, or a member of
that slot's dataset-derived option set (which includes the wildcard
dontcare). -/
theorem C10_output_value_range (lex : Lexicon) (text : String) :
    (extract_keywords lex text).pricerange ∈
      (none : Option String) :: ((pricerange_options lex).map some ++ [some "unknown"]) ∧
    (extract_keywords lex text).area ∈
      (none : Option String) :: ((area_options lex).map some ++ [some "unknown"]) ∧
    (extract_keywords lex text).food ∈
      (none : Option String) :: ((food_options lex).map some ++ [some "unknown"]) := by
  refine ⟨?_, ?_, ?_⟩
  · exact slot_range _ _ _ (merge_value_mem _ _ _
      (fun w hw => map_keyword_mem _ _ _ _ hw)
      (fun w hw => fuzzy_find_mem _ _ _ _ _ hw))
  · exact slot_range _ _ _ (merge_value_mem _ _ _
      (fun w hw => map_keyword_mem _ _ _ _ hw)
      (fun w hw => fuzzy_find_mem _ _ _ _ _ hw))
  · exact slot_range _ _ _ (merge_value_mem _ _ _
      (fun w hw => map_keyword_mem _ _ _ _ hw)
      (fun w hw => fuzzy_find_mem _ _ _ _ _ hw))

/-! ## Helper lemmas: the fuzzy matcher prefers concrete values -/

theorem allowed_le3 (cand : List Char) : allowed_distance 3 cand ≤ 3 := by
  unfold allowed_distance
  omega

theorem fuzzy_update_seg_concrete (mapped cand : List Char) (allowed : Nat)
    (hal : allowed ≤ 3) (hmdc : (mapped == dontcareChars) = false)
    (st : FuzzyState) (seg : List Char) (hinv : fuzzy_inv st) :
    fuzzy_inv (fuzzy_update_seg mapped cand allowed st seg) ∧
    ((fuzzy_update_seg mapped cand allowed st seg).best_value.isSome = true ↔
      (st.best_value.isSome = true ∨
       (decide (3 ≤ seg.length) && decide (lev_distance seg cand ≤ allowed)) = true)) ∧
    (fuzzy_update_seg mapped cand allowed st seg).best_dc_value = st.best_dc_value ∧
    (fuzzy_update_seg mapped cand allowed st seg).best_dc_distance = st.best_dc_distance := by
  obtain ⟨i1, i2, i3, i4, i5, i6⟩ := hinv
  unfold fuzzy_update_seg
  by_cases h3 : seg.length < 3
  · rw [if_pos h3]
    have : (3 ≤ seg.length) = False := by simp; omega
    refine ⟨⟨i1, i2, i3, i4, i5, i6⟩, ?_, rfl, rfl⟩
    simp [this]
  · rw [if_neg h3]
    dsimp only
    by_cases hd : allowed < lev_distance seg cand
    · rw [if_pos hd]
      have : (lev_distance seg cand ≤ allowed) = False := by simp; omega
      refine ⟨⟨i1, i2, i3, i4, i5, i6⟩, ?_, rfl, rfl⟩
      simp [this]
    · rw [if_neg hd]
      rw [if_neg (by rw [hmdc]; simp)]
      have hdle : lev_distance seg cand ≤ allowed := by omega
      by_cases hlt : lev_distance seg cand < st.best_distance
      · rw [if_pos hlt]
        refine ⟨⟨?_, ?_, i3, i4, ?_, i6⟩, ?_, rfl, rfl⟩
        · constructor
          · intro h
            simp at h
          · intro h
            exfalso
            dsimp only at h
            omega
        · show lev_distance seg cand ≤ 4
          omega
        · intro v hv
          injection hv with hv
          rw [← hv]
          intro hvdc
          rw [hvdc] at hmdc
          simp at hmdc
        · constructor
          · intro _
            right
            have hg1 : 3 ≤ seg.length := by omega
            simp [hg1, hdle]
          · intro _
            simp
      · rw [if_neg hlt]
        have hbv : st.best_value.isSome = true := by
          have hbd : st.best_distance ≠ 4 := by omega
          cases hb : st.best_value with
          | none => exact absurd (i1.mp hb) hbd
          | some w => rfl
        refine ⟨⟨i1, i2, i3, i4, i5, i6⟩, ?_, rfl, rfl⟩
        simp [hbv]

theorem fuzzy_update_seg_dc (mapped cand : List Char) (allowed : Nat)
    (hal : allowed ≤ 3) (hmdc : (mapped == dontcareChars) = true)
    (st : FuzzyState) (seg : List Char) (hinv : fuzzy_inv st) :
    fuzzy_inv (fuzzy_update_seg mapped cand allowed st seg) ∧
    ((fuzzy_update_seg mapped cand allowed st seg).best_dc_value.isSome = true ↔
      (st.best_dc_value.isSome = true ∨
       (decide (3 ≤ seg.length) && decide (lev_distance seg cand ≤ allowed)) = true)) ∧
    (fuzzy_update_seg mapped cand allowed st seg).best_value = st.best_value ∧
    (fuzzy_update_seg mapped cand allowed st seg).best_distance = st.best_distance := by
  obtain ⟨i1, i2, i3, i4, i5, i6⟩ := hinv
  unfold fuzzy_update_seg
  by_cases h3 : seg.length < 3
  · rw [if_pos h3]
    have : (3 ≤ seg.length) = False := by simp; omega
    refine ⟨⟨i1, i2, i3, i4, i5, i6⟩, ?_, rfl, rfl⟩
    simp [this]
  · rw [if_neg h3]
    dsimp only
    by_cases hd : allowed < lev_distance seg cand
    · rw [if_pos hd]
      have : (lev_distance seg cand ≤ allowed) = False := by simp; omega
      refine ⟨⟨i1, i2, i3, i4, i5, i6⟩, ?_, rfl, rfl⟩
      simp [this]
    · rw [if_neg hd]
      rw [if_pos (by rw [hmdc])]
      have hdle : lev_distance seg cand ≤ allowed := by omega
      by_cases hlt : lev_distance seg cand < st.best_dc_distance
      · rw [if_pos hlt]
        refine ⟨⟨i1, i2, ?_, ?_, i5, ?_⟩, ?_, rfl, rfl⟩
        · constructor
          · intro h
            simp at h
          · intro h
            exfalso
            dsimp only at h
            omega
        · show lev_distance seg cand ≤ 4
          omega
        · intro v hv
          injection hv with hv
          rw [← hv]
          exact (beq_iff_eq ..).mp hmdc
        · constructor
          · intro _
            right
            have hg1 : 3 ≤ seg.length := by omega
            simp [hg1, hdle]
          · intro _
            simp
      · rw [if_neg hlt]
        have hbv : st.best_dc_value.isSome = true := by
          have hbd : st.best_dc_distance ≠ 4 := by omega
          cases hb : st.best_dc_value with
          | none => exact absurd (i3.mp hb) hbd
          | some w => rfl
        refine ⟨⟨i1, i2, i3, i4, i5, i6⟩, ?_, rfl, rfl⟩
        simp [hbv]

theorem seg_fold_concrete (mapped cand : List Char) (allowed : Nat)
    (hal : allowed ≤ 3) (hmdc : (mapped == dontcareChars) = false) :
    ∀ (segs : List (List Char)) (st : FuzzyState), fuzzy_inv st →
      fuzzy_inv (segs.foldl (fuzzy_update_seg mapped cand allowed) st) ∧
      ((segs.foldl (fuzzy_update_seg mapped cand allowed) st).best_value.isSome = true ↔
        (st.best_value.isSome = true ∨
         segs.any (fun seg => decide (3 ≤ seg.length) && decide (lev_distance seg cand ≤ allowed)) = true)) ∧
      (segs.foldl (fuzzy_update_seg mapped cand allowed) st).best_dc_value = st.best_dc_value ∧
      (segs.foldl (fuzzy_update_seg mapped cand allowed) st).best_dc_distance = st.best_dc_distance := by
  intro segs
  induction segs with
  | nil =>
      intro st h
      exact ⟨h, by simp, rfl, rfl⟩
  | cons seg segs ih =>
      intro st h
      obtain ⟨hinv1, hiff1, hdc1, hdd1⟩ := fuzzy_update_seg_concrete mapped cand allowed hal hmdc st seg h
      obtain ⟨hinv2, hiff2, hdc2, hdd2⟩ := ih (fuzzy_update_seg mapped cand allowed st seg) hinv1
      refine ⟨hinv2, ?_, hdc2.trans hdc1, hdd2.trans hdd1⟩
      simp only [List.foldl_cons, List.any_cons]
      rw [hiff2, hiff1]
      simp only [Bool.or_eq_true]
      tauto

theorem seg_fold_dc (mapped cand : List Char) (allowed : Nat)
    (hal : allowed ≤ 3) (hmdc : (mapped == dontcareChars) = true) :
    ∀ (segs : List (List Char)) (st : FuzzyState), fuzzy_inv st →
      fuzzy_inv (segs.foldl (fuzzy_update_seg mapped cand allowed) st) ∧
      ((segs.foldl (fuzzy_update_seg mapped cand allowed) st).best_dc_value.isSome = true ↔
        (st.best_dc_value.isSome = true ∨
         segs.any (fun seg => decide (3 ≤ seg.length) && decide (lev_distance seg cand ≤ allowed)) = true)) ∧
      (segs.foldl (fuzzy_update_seg mapped cand allowed) st).best_value = st.best_value ∧
      (segs.foldl (fuzzy_update_seg mapped cand allowed) st).best_distance = st.best_distance := by
  intro segs
  induction segs with
  | nil =>
      intro st h
      exact ⟨h, by simp, rfl, rfl⟩
  | cons seg segs ih =>
      intro st h
      obtain ⟨hinv1, hiff1, hdc1, hdd1⟩ := fuzzy_update_seg_dc mapped cand allowed hal hmdc st seg h
      obtain ⟨hinv2, hiff2, hdc2, hdd2⟩ := ih (fuzzy_update_seg mapped cand allowed st seg) hinv1
      refine ⟨hinv2, ?_, hdc2.trans hdc1, hdd2.trans hdd1⟩
      simp only [List.foldl_cons, List.any_cons]
      rw [hiff2, hiff1]
      simp only [Bool.or_eq_true]
      tauto

theorem cand_hit_nil (kmap : List (String × String)) (options : List String)
    (dc : Bool) (c : String) : cand_hit kmap options [] dc c = false := by
  unfold cand_hit
  dsimp only
  cases hmk : map_keyword_to_option (some (clean_chars c.data)) kmap options with
  | none => simp [hmk]
  | some mapped =>
      simp only [hmk]
      have hseg : segmentsFor [] (max 1 (splitWords (clean_chars c.data)).length) = [] := by
        unfold segmentsFor
        have h0 : ([] : List (List Char)).length + 1 -
            max 1 (splitWords (clean_chars c.data)).length = 0 := by
          have := Nat.le_max_left 1 (splitWords (clean_chars c.data)).length
          simp only [List.length_nil]
          omega
        rw [h0]
        rfl
      rw [hseg]
      simp

theorem fuzzy_update_cand_hit (kmap : List (String × String)) (options : List String)
    (tokens : List (List Char)) (st : FuzzyState) (c : String) (hinv : fuzzy_inv st) :
    fuzzy_inv (fuzzy_update_cand kmap options 3 tokens st c) ∧
    ((fuzzy_update_cand kmap options 3 tokens st c).best_value.isSome = true ↔
      (st.best_value.isSome = true ∨ cand_hit kmap options tokens false c = true)) ∧
    ((fuzzy_update_cand kmap options 3 tokens st c).best_dc_value.isSome = true ↔
      (st.best_dc_value.isSome = true ∨ cand_hit kmap options tokens true c = true)) := by
  unfold fuzzy_update_cand cand_hit
  dsimp only
  by_cases hke : (clean_chars c.data).isEmpty = true
  · rw [if_pos hke]
    refine ⟨hinv, ?_, ?_⟩ <;> rw [hke] <;> simp
  · have hkne : clean_chars c.data ≠ [] := fun hnil => hke (by rw [hnil]; rfl)
    rw [if_neg hke]
    cases hmk : map_keyword_to_option (some (clean_chars c.data)) kmap options with
    | none =>
        simp only [hmk]
        refine ⟨hinv, by simp, by simp⟩
    | some mapped =>
        simp only [hmk]
        by_cases hsegs : (segmentsFor tokens (max 1 (splitWords (clean_chars c.data)).length)).isEmpty = true
        · rw [if_pos hsegs]
          have hnil : segmentsFor tokens (max 1 (splitWords (clean_chars c.data)).length) = [] := by
            cases hx : segmentsFor tokens (max 1 (splitWords (clean_chars c.data)).length) with
            | nil => rfl
            | cons a l => rw [hx] at hsegs; simp at hsegs
          rw [hnil]
          refine ⟨hinv, ?_, ?_⟩ <;> simp
        · rw [if_neg hsegs]
          by_cases hmdc : (mapped == dontcareChars) = true
          · obtain ⟨hinv2, hiff, hbv, hbd⟩ := seg_fold_dc mapped (clean_chars c.data)
              (allowed_distance 3 (clean_chars c.data)) (allowed_le3 _) hmdc
              (segmentsFor tokens (max 1 (splitWords (clean_chars c.data)).length)) st hinv
            refine ⟨hinv2, ?_, ?_⟩
            · rw [hbv, hmdc]
              simp
            · rw [hiff, hmdc]
              simp [hkne]
          · have hmdc2 : (mapped == dontcareChars) = false := by
              cases hmm : (mapped == dontcareChars)
              · rfl
              · exact absurd hmm hmdc
            obtain ⟨hinv2, hiff, hdcv, hdcd⟩ := seg_fold_concrete mapped (clean_chars c.data)
              (allowed_distance 3 (clean_chars c.data)) (allowed_le3 _) hmdc2
              (segmentsFor tokens (max 1 (splitWords (clean_chars c.data)).length)) st hinv
            refine ⟨hinv2, ?_, ?_⟩
            · rw [hiff, hmdc2]
              simp [hkne]
            · rw [hdcv, hmdc2]
              simp

theorem fuzzy_fold_hit (kmap : List (String × String)) (options : List String)
    (tokens : List (List Char)) :
    ∀ (cands : List String) (st : FuzzyState), fuzzy_inv st →
      fuzzy_inv (cands.foldl (fuzzy_update_cand kmap options 3 tokens) st) ∧
      ((cands.foldl (fuzzy_update_cand kmap options 3 tokens) st).best_value.isSome = true ↔
        (st.best_value.isSome = true ∨ cands.any (cand_hit kmap options tokens false) = true)) ∧
      ((cands.foldl (fuzzy_update_cand kmap options 3 tokens) st).best_dc_value.isSome = true ↔
        (st.best_dc_value.isSome = true ∨ cands.any (cand_hit kmap options tokens true) = true)) := by
  intro cands
  induction cands with
  | nil =>
      intro st h
      exact ⟨h, by simp, by simp⟩
  | cons c cands ih =>
      intro st h
      obtain ⟨hinv1, hiff1, hdciff1⟩ := fuzzy_update_cand_hit kmap options tokens st c h
      obtain ⟨hinv2, hiff2, hdciff2⟩ := ih (fuzzy_update_cand kmap options 3 tokens st c) hinv1
      refine ⟨hinv2, ?_, ?_⟩
      · simp only [List.foldl_cons, List.any_cons]
        rw [hiff2, hiff1]
        simp only [Bool.or_eq_true]
        exact or_assoc
      · simp only [List.foldl_cons, List.any_cons]
        rw [hdciff2, hdciff1]
        simp only [Bool.or_eq_true]
        exact or_assoc

/-- C7: for every synonym map, option set and input text, the fuzzy matcher
returns a concrete (non-wildcard) domain value whenever some concrete
candidate phrase lies within its per-phrase distance budget — even if a
wildcard phrase matches at a strictly smaller distance — and it returns the
wildcard exactly when no concrete candidate is within budget and some
wildcard candidate is. -/
theorem C7_fuzzy_prefers_concrete (kmap : List (String × String)) (options : List String)
    (text : List Char) :
    (spec_concrete_hit kmap options text = true →
       ∃ v, fuzzy_find_keyword text kmap options 3 = some v ∧ v ≠ dontcareChars ∧
         ∃ o ∈ options, o.data = v) ∧
    (fuzzy_find_keyword text kmap options 3 = some dontcareChars ↔
       (spec_concrete_hit kmap options text = false ∧ spec_dontcare_hit kmap options text = true)) := by
  unfold spec_concrete_hit spec_dontcare_hit
  by_cases htok : (fuzzy_tokens text).isEmpty = true
  · have hnil : fuzzy_tokens text = [] := by
      cases hx : fuzzy_tokens text with
      | nil => rfl
      | cons a l => rw [hx] at htok; simp at htok
    have hff : fuzzy_find_keyword text kmap options 3 = none := by
      unfold fuzzy_find_keyword
      dsimp only
      rw [if_pos htok]
    have hanyf : ∀ dc, ((options ++ kmap.map (·.1)).any (cand_hit kmap options (fuzzy_tokens text) dc)) = false := by
      intro dc
      rw [hnil]
      cases hx : (options ++ kmap.map (·.1)).any (cand_hit kmap options [] dc)
      · rfl
      · obtain ⟨c, -, hc⟩ := List.any_eq_true.mp hx
        rw [cand_hit_nil] at hc
        simp at hc
    constructor
    · intro hc
      rw [hanyf false] at hc
      simp at hc
    · rw [hff]
      constructor
      · intro h
        simp at h
      · rintro ⟨-, hdc⟩
        rw [hanyf true] at hdc
        simp at hdc
  · set F := (options ++ kmap.map (·.1)).foldl
      (fuzzy_update_cand kmap options 3 (fuzzy_tokens text))
      ⟨none, 3 + 1, none, 3 + 1⟩ with hF
    have hinv0 : fuzzy_inv ⟨none, 3 + 1, none, 3 + 1⟩ := by
      refine ⟨by simp, by norm_num, by simp, by norm_num, ?_, ?_⟩ <;>
        intro v hv <;> simp at hv
    obtain ⟨hinv, hiff, hdciff⟩ := fuzzy_fold_hit kmap options (fuzzy_tokens text)
      (options ++ kmap.map (·.1)) ⟨none, 3 + 1, none, 3 + 1⟩ hinv0
    obtain ⟨i1, i2, i3, i4, i5, i6⟩ := hinv
    have hsome_iff : fuzzy_find_keyword text kmap options 3 =
        (if F.best_value.isSome = true then F.best_value
         else if F.best_dc_distance ≤ 3 then F.best_dc_value else none) := by
      unfold fuzzy_find_keyword
      dsimp only
      rw [if_neg htok]
    have hmem := fuzzy_fold_mem kmap options 3 (fuzzy_tokens text)
      (fun w => ∃ o ∈ options, o.data = w)
      (fun c mapped hmk => map_keyword_mem _ _ _ _ hmk)
      (options ++ kmap.map (·.1)) ⟨none, 3 + 1, none, 3 + 1⟩
      (by intro w hw; simp at hw) (by intro w hw; simp at hw)
    constructor
    · intro hc
      have hbv : F.best_value.isSome = true := hiff.mpr (Or.inr hc)
      obtain ⟨v, hv⟩ := Option.isSome_iff_exists.mp hbv
      refine ⟨v, ?_, i5 v hv, hmem.1 v hv⟩
      rw [hsome_iff, if_pos hbv]
      exact hv
    · rw [hsome_iff]
      constructor
      · intro h
        by_cases hbv : F.best_value.isSome = true
        · rw [if_pos hbv] at h
          exact absurd rfl (i5 dontcareChars h)
        · rw [if_neg hbv] at h
          by_cases hdd : F.best_dc_distance ≤ 3
          · rw [if_pos hdd] at h
            have hdcsome : F.best_dc_value.isSome = true := by rw [h]; rfl
            rcases hdciff.mp hdcsome with hfalse | hany
            · simp at hfalse
            · refine ⟨?_, hany⟩
              cases hca : (options ++ kmap.map (·.1)).any (cand_hit kmap options (fuzzy_tokens text) false)
              · rfl
              · exact absurd (hiff.mpr (Or.inr hca)) hbv
          · rw [if_neg hdd] at h
            simp at h
      · rintro ⟨hcf, hdt⟩
        have hbvf : F.best_value.isSome = false := by
          cases hx : F.best_value.isSome
          · rfl
          · rcases hiff.mp hx with hfalse | hany
            · simp at hfalse
            · rw [hany] at hcf
              simp at hcf
        rw [if_neg (by rw [hbvf]; simp)]
        have hdcsome : F.best_dc_value.isSome = true := hdciff.mpr (Or.inr hdt)
        obtain ⟨w, hw⟩ := Option.isSome_iff_exists.mp hdcsome
        have hwdc : w = dontcareChars := i6 w hw
        have hddne : F.best_dc_distance ≠ 4 := by
          intro h4
          rw [i3.mpr h4] at hw
          simp at hw
        have i4F : F.best_dc_distance ≤ 4 := i4
        have hdd : F.best_dc_distance ≤ 3 := by omega
        rw [if_pos hdd, hw, hwdc]

/-- C7 witness: on "Do you have afrcan food?" a concrete cuisine (african, at
edit distance 1) is within budget, so the matcher returns a concrete domain
value. -/
theorem C7_fuzzy_witness :
    ∃ v, fuzzy_find_keyword "Do you have afrcan food?".data food_keyword_map (food_options mainLex) 3 = some v ∧
      v ≠ dontcareChars ∧ ∃ o ∈ food_options mainLex, o.data = v :=
  (C7_fuzzy_prefers_concrete food_keyword_map (food_options mainLex)
    "Do you have afrcan food?".data).1 (by decide)

/-! ## Helper lemmas: the dialog state machine -/

theorem restart_fallback_id (s : Session) (u : String) (act : String)
    (hne : act ≠ "restart")
    (hnr : (s.allow_restart && restart_phrases.any (fun p => strContains (lowerStr u) p)) = false) :
    restart_fallback s (some u) act = act := by
  unfold restart_fallback
  cases har : s.allow_restart
  · simp
  · rw [har] at hnr
    have hany : restart_phrases.any (fun p => strContains (lowerStr u) p) = false := by
      simpa using hnr
    by_cases hu : u = ""
    · simp [hu]
    · simp [hu, hne, hany]

theorem yesno_remap_intent (s : Session) (cs : Option String) (u : Option String)
    (act : String)
    (hin : (confirm_intents.contains act || deny_intents.contains act) = true) :
    yesno_remap s cs u act = act := by
  unfold yesno_remap
  cases u with
  | none =>
      split
      · rfl
      · rfl
  | some v =>
      split
      · by_cases hv : v = ""
        · simp [hv]
        · have hin2 : act ∈ confirm_intents ∨ act ∈ deny_intents := by
            simpa using hin
          simp [hv]
          intro h1 h2
          rcases hin2 with h | h
          · exact absurd h h1
          · exact absurd h h2
      · rfl

/-- C2: in the Confirm-preference state with an active pending value and a
non-empty queue, a deny/negate act (with no restart trigger) discards the
pending value, empties the whole queue, commits no slot value, and returns to
the denied slot's stored ask state with its stored ask prompt. -/
theorem C2_deny_clears_queue_and_reverts (env : DialogEnv) (s : Session)
    (u : String) (sl st pr : String)
    (hconf : s.confirm_preferences = true)
    (hslot : s.pending_slot = some sl)
    (hstate : s.pending_state = some st) (hst : st ≠ "")
    (hprompt : s.pending_prompt = some pr) (hpr : pr ≠ "")
    (hq : s.pending_queue ≠ [])
    (hact : env.classify u = "deny" ∨ env.classify u = "negate")
    (hnr : (s.allow_restart && restart_phrases.any (fun p => strContains (lowerStr u) p)) = false) :
    (state_transition env s (some "Confirm preference") (some u)).2.1 = some st ∧
    (state_transition env s (some "Confirm preference") (some u)).2.2 = some pr ∧
    (state_transition env s (some "Confirm preference") (some u)).1.pending_queue = [] ∧
    (state_transition env s (some "Confirm preference") (some u)).1.pending_slot = none ∧
    (state_transition env s (some "Confirm preference") (some u)).1.pending_value = none ∧
    (state_transition env s (some "Confirm preference") (some u)).1.pending_state = none ∧
    (state_transition env s (some "Confirm preference") (some u)).1.pending_prompt = none ∧
    (state_transition env s (some "Confirm preference") (some u)).1.pending_message = none ∧
    (state_transition env s (some "Confirm preference") (some u)).1.area = s.area ∧
    (state_transition env s (some "Confirm preference") (some u)).1.price = s.price ∧
    (state_transition env s (some "Confirm preference") (some u)).1.food = s.food := by
  have hne : env.classify u ≠ "restart" := by
    rcases hact with h | h <;> rw [h] <;> decide
  have hA : restart_fallback s (some u) (env.classify u) = env.classify u :=
    restart_fallback_id s u (env.classify u) hne hnr
  have hin : (confirm_intents.contains (env.classify u) ||
      deny_intents.contains (env.classify u)) = true := by
    rcases hact with h | h <;> rw [h] <;> decide
  have hremap : yesno_remap s (some "Confirm preference") (some u) (env.classify u) = env.classify u :=
    yesno_remap_intent s _ _ _ hin
  have hc1 : confirm_intents.contains (env.classify u) = false := by
    rcases hact with h | h <;> rw [h] <;> decide
  have hc2 : deny_intents.contains (env.classify u) = true := by
    rcases hact with h | h <;> rw [h] <;> decide
  have hbne : (env.classify u == "restart") = false := by
    rcases hact with h | h <;> rw [h] <;> decide
  have hcb : confirm_block s (some "Confirm preference") (env.classify u) =
      .inr ({ s with pending_slot := none, pending_value := none,
                     pending_state := none, pending_prompt := none,
                     pending_message := none, pending_queue := [],
                     state_history := s.state_history ++ [some st] },
            some st, some pr) := by
    unfold confirm_block
    rw [if_pos (show (s.confirm_preferences &&
      ((some "Confirm preference" : Option String) == some "Confirm preference")) = true by
        rw [hconf]; rfl)]
    rw [hslot]
    dsimp only
    rw [hc1]
    simp only [Bool.false_eq_true, if_false]
    rw [if_pos hc2]
    rw [hstate, hprompt]
    unfold py_or_str
    dsimp only
    rw [if_neg (by simp [String.isEmpty_iff]; exact hst),
        if_neg (by simp [String.isEmpty_iff]; exact hpr)]
  have hmain : state_transition env s (some "Confirm preference") (some u) =
      ({ s with pending_slot := none, pending_value := none,
                pending_state := none, pending_prompt := none,
                pending_message := none, pending_queue := [],
                state_history := s.state_history ++ [some st] },
       some st, some pr) := by
    unfold state_transition classify_act
    dsimp only
    rw [hA, hbne]
    simp only [Bool.and_false, Bool.false_eq_true, if_false]
    rw [hremap, hcb]
  rw [hmain]
  exact ⟨rfl, rfl, rfl, rfl, rfl, rfl, rfl, rfl, rfl, rfl, rfl⟩

/-- C2 witness: a concrete denial with one queued capture, run through the
theorem. -/
theorem C2_deny_witness :
    (state_transition (constEnv mainLex "deny") sessionC2 (some "Confirm preference") (some "no")).2.1 = some "2.2 Ask Area" ∧
    (state_transition (constEnv mainLex "deny") sessionC2 (some "Confirm preference") (some "no")).2.2 = some "What part of town do you have in mind?" ∧
    (state_transition (constEnv mainLex "deny") sessionC2 (some "Confirm preference") (some "no")).1.pending_queue = [] ∧
    (state_transition (constEnv mainLex "deny") sessionC2 (some "Confirm preference") (some "no")).1.pending_slot = none ∧
    (state_transition (constEnv mainLex "deny") sessionC2 (some "Confirm preference") (some "no")).1.pending_value = none ∧
    (state_transition (constEnv mainLex "deny") sessionC2 (some "Confirm preference") (some "no")).1.pending_state = none ∧
    (state_transition (constEnv mainLex "deny") sessionC2 (some "Confirm preference") (some "no")).1.pending_prompt = none ∧
    (state_transition (constEnv mainLex "deny") sessionC2 (some "Confirm preference") (some "no")).1.pending_message = none ∧
    (state_transition (constEnv mainLex "deny") sessionC2 (some "Confirm preference") (some "no")).1.area = sessionC2.area ∧
    (state_transition (constEnv mainLex "deny") sessionC2 (some "Confirm preference") (some "no")).1.price = sessionC2.price ∧
    (state_transition (constEnv mainLex "deny") sessionC2 (some "Confirm preference") (some "no")).1.food = sessionC2.food :=
  C2_deny_clears_queue_and_reverts (constEnv mainLex "deny") sessionC2 "no"
    "area" "2.2 Ask Area" "What part of town do you have in mind?"
    (by decide) (by decide) (by decide) (by decide) (by decide) (by decide)
    (by decide) (Or.inl rfl) (by decide)

/-! ## Helper lemmas: the extraction block -/

theorem capture_area_spec (s : Session) (cs : Option String) (v : Option String) :
    (capture_area s cs v).1.area =
      (if s.confirm_preferences = false ∧ slot_accepts v cs "2.2 Ask Area" = true then v else s.area) ∧
    (capture_area s cs v).1.price = s.price ∧
    (capture_area s cs v).1.food = s.food ∧
    (capture_area s cs v).1.pending_slot = s.pending_slot ∧
    (capture_area s cs v).1.pending_value = s.pending_value ∧
    (capture_area s cs v).1.pending_queue = s.pending_queue ∧
    (capture_area s cs v).1.confirm_preferences = s.confirm_preferences ∧
    (capture_area s cs v).2 =
      (if s.confirm_preferences = true ∧ slot_accepts v cs "2.2 Ask Area" = true then
        [PendingEntry.mk "area" (v.getD "") "2.2 Ask Area" "What part of town do you have in mind?"]
       else []) := by
  cases v with
  | none => cases hcp : s.confirm_preferences <;> simp [capture_area, slot_accepts, hcp]
  | some w =>
      by_cases hacc : ((w == "dontcare" && cs == some "2.2 Ask Area") || w != "dontcare") = true
      · cases hcp : s.confirm_preferences <;> simp [capture_area, slot_accepts, hcp, hacc]
      · have hacc2 : ((w == "dontcare" && cs == some "2.2 Ask Area") || w != "dontcare") = false := by
          cases hx : ((w == "dontcare" && cs == some "2.2 Ask Area") || w != "dontcare")
          · rfl
          · exact absurd hx hacc
        cases hcp : s.confirm_preferences <;> simp [capture_area, slot_accepts, hcp, hacc2]

theorem capture_price_spec (s : Session) (cs : Option String) (v : Option String) :
    (capture_price s cs v).1.price =
      (if s.confirm_preferences = false ∧ slot_accepts v cs "3.2 Ask price" = true then v else s.price) ∧
    (capture_price s cs v).1.area = s.area ∧
    (capture_price s cs v).1.food = s.food ∧
    (capture_price s cs v).1.pending_slot = s.pending_slot ∧
    (capture_price s cs v).1.pending_value = s.pending_value ∧
    (capture_price s cs v).1.pending_queue = s.pending_queue ∧
    (capture_price s cs v).1.confirm_preferences = s.confirm_preferences ∧
    (capture_price s cs v).2 =
      (if s.confirm_preferences = true ∧ slot_accepts v cs "3.2 Ask price" = true then
        [PendingEntry.mk "price" (v.getD "") "3.2 Ask price" "How pricy would you like the restaurant to be?"]
       else []) := by
  cases v with
  | none => cases hcp : s.confirm_preferences <;> simp [capture_price, slot_accepts, hcp]
  | some w =>
      by_cases hacc : ((w == "dontcare" && cs == some "3.2 Ask price") || w != "dontcare") = true
      · cases hcp : s.confirm_preferences <;> simp [capture_price, slot_accepts, hcp, hacc]
      · have hacc2 : ((w == "dontcare" && cs == some "3.2 Ask price") || w != "dontcare") = false := by
          cases hx : ((w == "dontcare" && cs == some "3.2 Ask price") || w != "dontcare")
          · rfl
          · exact absurd hx hacc
        cases hcp : s.confirm_preferences <;> simp [capture_price, slot_accepts, hcp, hacc2]

theorem capture_food_spec (s : Session) (cs : Option String) (v : Option String) :
    (capture_food s cs v).1.food =
      (if s.confirm_preferences = false ∧ slot_accepts v cs "4.2 Ask Food type" = true then v else s.food) ∧
    (capture_food s cs v).1.area = s.area ∧
    (capture_food s cs v).1.price = s.price ∧
    (capture_food s cs v).1.pending_slot = s.pending_slot ∧
    (capture_food s cs v).1.pending_value = s.pending_value ∧
    (capture_food s cs v).1.pending_queue = s.pending_queue ∧
    (capture_food s cs v).1.confirm_preferences = s.confirm_preferences ∧
    (capture_food s cs v).2 =
      (if s.confirm_preferences = true ∧ slot_accepts v cs "4.2 Ask Food type" = true then
        [PendingEntry.mk "food" (v.getD "") "4.2 Ask Food type" "What kind of food would you like?"]
       else []) := by
  cases v with
  | none => cases hcp : s.confirm_preferences <;> simp [capture_food, slot_accepts, hcp]
  | some w =>
      by_cases hacc : ((w == "dontcare" && cs == some "4.2 Ask Food type") || w != "dontcare") = true
      · cases hcp : s.confirm_preferences <;> simp [capture_food, slot_accepts, hcp, hacc]
      · have hacc2 : ((w == "dontcare" && cs == some "4.2 Ask Food type") || w != "dontcare") = false := by
          cases hx : ((w == "dontcare" && cs == some "4.2 Ask Food type") || w != "dontcare")
          · rfl
          · exact absurd hx hacc
        cases hcp : s.confirm_preferences <;> simp [capture_food, slot_accepts, hcp, hacc2]

theorem queue_captured_inl (s : Session) (cs : Option String) (act : String)
    (entries : List PendingEntry)
    (h : s.confirm_preferences = false ∨ entries = []) :
    queue_captured s cs act entries = .inl (s, cs, act) := by
  unfold queue_captured
  rcases h with h | h
  · rw [h]
    rfl
  · rw [h]
    cases s.confirm_preferences <;> rfl

theorem queue_captured_inr (s : Session) (cs : Option String) (act : String)
    (entries : List PendingEntry)
    (hconf : s.confirm_preferences = true) (hne : entries ≠ []) :
    ∃ s' r, queue_captured s cs act entries = .inr (s', r) ∧
      s'.area = s.area ∧ s'.price = s.price ∧ s'.food = s.food ∧
      all_pending s' = all_pending s ++ entries.map (fun e => (e.slot, e.value)) := by
  unfold queue_captured
  rw [hconf]
  have hne2 : entries.isEmpty = false := by
    cases hx : entries with
    | nil => exact absurd hx hne
    | cons a l => rfl
  rw [hne2]
  rw [if_pos (by decide : (true && !false) = true)]
  dsimp only
  cases hps : s.pending_slot with
  | some sl =>
      rw [if_neg (by simp)]
      refine ⟨_, _, rfl, rfl, rfl, rfl, ?_⟩
      simp [all_pending, hps, List.map_append, List.append_assoc]
  | none =>
      rw [if_pos (show ((none : Option String) == none) = true from rfl)]
      unfold start_next_confirmation
      dsimp only
      cases hq : s.pending_queue with
      | nil =>
          cases entries with
          | nil => exact absurd rfl hne
          | cons e rest =>
              simp only [hq, List.nil_append]
              unfold confirm_each_preference
              dsimp only
              refine ⟨_, _, rfl, rfl, rfl, rfl, ?_⟩
              simp [all_pending, hps, hq]
      | cons h t =>
          simp only [hq, List.cons_append]
          unfold confirm_each_preference
          dsimp only
          refine ⟨_, _, rfl, rfl, rfl, rfl, ?_⟩
          simp [all_pending, hps, hq, List.map_append]

/-! ## Helper lemmas: preservation of slots and pending fields -/

theorem all_pending_congr (s' s : Session)
    (h1 : s'.pending_slot = s.pending_slot)
    (h2 : s'.pending_value = s.pending_value)
    (h3 : s'.pending_queue = s.pending_queue) :
    all_pending s' = all_pending s := by
  unfold all_pending
  rw [h1, h2, h3]

theorem reorder_step_fields (s : Session) (cs : Option String) :
    (reorder_step s cs).1.area = s.area ∧
    (reorder_step s cs).1.price = s.price ∧
    (reorder_step s cs).1.food = s.food ∧
    (reorder_step s cs).1.pending_slot = s.pending_slot ∧
    (reorder_step s cs).1.pending_value = s.pending_value ∧
    (reorder_step s cs).1.pending_queue = s.pending_queue :=
  ⟨rfl, rfl, rfl, rfl, rfl, rfl⟩

theorem main_branches_area (env : DialogEnv) (s : Session) (cs : Option String)
    (act : String) (u : Option String) :
    (main_branches env s cs act u).1.area = s.area := by
  unfold main_branches
  dsimp only
  simp only [apply_ite (fun p : Session × Option String × Option String => p.1.area),
             apply_ite Session.area, ite_self]

theorem main_branches_price (env : DialogEnv) (s : Session) (cs : Option String)
    (act : String) (u : Option String) :
    (main_branches env s cs act u).1.price = s.price := by
  unfold main_branches
  dsimp only
  simp only [apply_ite (fun p : Session × Option String × Option String => p.1.price),
             apply_ite Session.price, ite_self]

theorem main_branches_food (env : DialogEnv) (s : Session) (cs : Option String)
    (act : String) (u : Option String) :
    (main_branches env s cs act u).1.food = s.food := by
  unfold main_branches
  dsimp only
  simp only [apply_ite (fun p : Session × Option String × Option String => p.1.food),
             apply_ite Session.food, ite_self]

theorem main_branches_pslot (env : DialogEnv) (s : Session) (cs : Option String)
    (act : String) (u : Option String) :
    (main_branches env s cs act u).1.pending_slot = s.pending_slot := by
  unfold main_branches
  dsimp only
  simp only [apply_ite (fun p : Session × Option String × Option String => p.1.pending_slot),
             apply_ite Session.pending_slot, ite_self]

theorem main_branches_pvalue (env : DialogEnv) (s : Session) (cs : Option String)
    (act : String) (u : Option String) :
    (main_branches env s cs act u).1.pending_value = s.pending_value := by
  unfold main_branches
  dsimp only
  simp only [apply_ite (fun p : Session × Option String × Option String => p.1.pending_value),
             apply_ite Session.pending_value, ite_self]

theorem main_branches_pqueue (env : DialogEnv) (s : Session) (cs : Option String)
    (act : String) (u : Option String) :
    (main_branches env s cs act u).1.pending_queue = s.pending_queue := by
  unfold main_branches
  dsimp only
  simp only [apply_ite (fun p : Session × Option String × Option String => p.1.pending_queue),
             apply_ite Session.pending_queue, ite_self]

theorem main_branches_fields (env : DialogEnv) (s : Session) (cs : Option String)
    (act : String) (u : Option String) :
    (main_branches env s cs act u).1.area = s.area ∧
    (main_branches env s cs act u).1.price = s.price ∧
    (main_branches env s cs act u).1.food = s.food ∧
    (main_branches env s cs act u).1.pending_slot = s.pending_slot ∧
    (main_branches env s cs act u).1.pending_value = s.pending_value ∧
    (main_branches env s cs act u).1.pending_queue = s.pending_queue :=
  ⟨main_branches_area env s cs act u, main_branches_price env s cs act u,
   main_branches_food env s cs act u, main_branches_pslot env s cs act u,
   main_branches_pvalue env s cs act u, main_branches_pqueue env s cs act u⟩

/-- C4 counterexample to the original claim: on an inform act the utterance
"i want some food" resolves the food slot to the sentinel "unknown", which the
extraction block then commits to the session, although "unknown" is neither a
domain value of the food slot nor the wildcard. -/
theorem C4_unknown_committed_counterexample :
    (state_transition (constEnv mainLex "inform") baseSession (some "1. Welcome")
        (some "i want some food")).1.food = some "unknown" ∧
    (food_options mainLex).contains "unknown" = false ∧
    (("unknown" : String) == "dontcare") = false := by
  decide

/-- C4 (amended): on an inform act (or a request/reqalts act while the current
state is one of the four initial slot-filling states), outside the confirmation
state and with no restart trigger, each extracted slot value is accepted
exactly when it passes
the wildcard gate `slot_accepts`: the value is present and is either different
from "dontcare" (this includes the sentinel "unknown") or equal to "dontcare"
while the dialog is currently asking for that very slot. Without confirmation
the accepted values are committed to the session directly; with confirmation
the committed slots stay unchanged and the accepted values are appended, in
slot order, to the pending confirmations. -/
theorem C4_acceptance_characterization (env : DialogEnv) (s : Session)
    (cs : Option String) (u : String)
    (hclass : env.classify u = "inform" ∨
      ((env.classify u = "request" ∨ env.classify u = "reqalts") ∧
       in_initial_states cs = true))
    (hnr : (s.allow_restart && restart_phrases.any (fun p => strContains (lowerStr u) p)) = false)
    (hncs : (cs == some "Confirm preference") = false) :
    (s.confirm_preferences = false →
       (state_transition env s cs (some u)).1.area =
         (if slot_accepts (extract_keywords env.lex u).area cs "2.2 Ask Area" then
            (extract_keywords env.lex u).area else s.area) ∧
       (state_transition env s cs (some u)).1.price =
         (if slot_accepts (extract_keywords env.lex u).pricerange cs "3.2 Ask price" then
            (extract_keywords env.lex u).pricerange else s.price) ∧
       (state_transition env s cs (some u)).1.food =
         (if slot_accepts (extract_keywords env.lex u).food cs "4.2 Ask Food type" then
            (extract_keywords env.lex u).food else s.food) ∧
       all_pending (state_transition env s cs (some u)).1 = all_pending s) ∧
    (s.confirm_preferences = true →
       (state_transition env s cs (some u)).1.area = s.area ∧
       (state_transition env s cs (some u)).1.price = s.price ∧
       (state_transition env s cs (some u)).1.food = s.food ∧
       all_pending (state_transition env s cs (some u)).1 =
         all_pending s ++ spec_captured (extract_keywords env.lex u) cs) := by
  have hne2 : env.classify u ≠ "restart" := by
    rcases hclass with h | ⟨h | h, hinit⟩ <;> rw [h] <;> decide
  have hA : restart_fallback s (some u) (env.classify u) = env.classify u :=
    restart_fallback_id s u (env.classify u) hne2 hnr
  have hbne : (env.classify u == "restart") = false := by
    rcases hclass with h | ⟨h | h, hinit⟩ <;> rw [h] <;> decide
  have hremap : yesno_remap s cs (some u) (env.classify u) = env.classify u := by
    unfold yesno_remap
    rw [hncs]
    simp
  have hcb : confirm_block s cs (env.classify u) = .inl (s, cs, env.classify u) := by
    unfold confirm_block
    rw [hncs]
    simp
  have hgate : ((env.classify u == "inform") ||
      ((env.classify u == "request" || env.classify u == "reqalts") &&
       in_initial_states cs)) = true := by
    rcases hclass with h | ⟨h | h, hinit⟩
    · rw [h]
      rfl
    · rw [h]
      exact hinit
    · rw [h]
      exact hinit
  have hst : state_transition env s cs (some u) =
      (match extraction_block env s cs (env.classify u) (some u) with
       | .inr r => r
       | .inl (s2, cs2, act4) =>
           main_branches env (reorder_step s2 cs2).1 (reorder_step s2 cs2).2 act4 (some u)) := by
    unfold state_transition classify_act
    dsimp only
    rw [hA, hbne]
    simp only [Bool.and_false, Bool.false_eq_true, if_false]
    rw [hremap, hcb]
  set out := extract_keywords env.lex u with hout
  obtain ⟨a1, a2, a3, a4, a5, a6, a7, a8⟩ := capture_area_spec s cs out.area
  set sA := (capture_area s cs out.area).1 with hsA
  obtain ⟨p1, p2, p3, p4, p5, p6, p7, p8⟩ := capture_price_spec sA cs out.pricerange
  set sP := (capture_price sA cs out.pricerange).1 with hsP
  obtain ⟨f1, f2, f3, f4, f5, f6, f7, f8⟩ := capture_food_spec sP cs out.food
  set sF := (capture_food sP cs out.food).1 with hsF
  set eA := (capture_area s cs out.area).2 with heA
  set eP := (capture_price sA cs out.pricerange).2 with heP
  set eF := (capture_food sP cs out.food).2 with heF
  have hext : extraction_block env s cs (env.classify u) (some u) =
      queue_captured sF cs (env.classify u) (eA ++ eP ++ eF) := by
    rw [heA, heP, heF, hsF, hsP, hsA, hout]
    unfold extraction_block
    rw [if_pos hgate]
    rfl
  have hps : sF.pending_slot = s.pending_slot := f4.trans (p4.trans a4)
  have hpv : sF.pending_value = s.pending_value := f5.trans (p5.trans a5)
  have hpq : sF.pending_queue = s.pending_queue := f6.trans (p6.trans a6)
  have hcf : sF.confirm_preferences = s.confirm_preferences := f7.trans (p7.trans a7)
  have hap : all_pending sF = all_pending s := all_pending_congr sF s hps hpv hpq
  constructor
  · intro hcp
    have heAe : eA = [] := by
      rw [a8]
      simp [hcp]
    have hePe : eP = [] := by
      rw [p8, a7]
      simp [hcp]
    have heFe : eF = [] := by
      rw [f8, p7, a7]
      simp [hcp]
    have heQ : queue_captured sF cs (env.classify u) (eA ++ eP ++ eF) =
        .inl (sF, cs, env.classify u) :=
      queue_captured_inl sF cs (env.classify u) _ (Or.inl (hcf.trans hcp))
    have hst2 : state_transition env s cs (some u) =
        main_branches env (reorder_step sF cs).1 (reorder_step sF cs).2 (env.classify u) (some u) := by
      rw [hst, hext, heQ]
    obtain ⟨m1, m2, m3, m4, m5, m6⟩ :=
      main_branches_fields env (reorder_step sF cs).1 (reorder_step sF cs).2 (env.classify u) (some u)
    obtain ⟨r1, r2, r3, r4, r5, r6⟩ := reorder_step_fields sF cs
    refine ⟨?_, ?_, ?_, ?_⟩
    · rw [hst2, m1, r1, f2, p2, a1]
      simp [hcp]
    · rw [hst2, m2, r2, f3, p1, a7, a2]
      simp [hcp]
    · rw [hst2, m3, r3, f1, p7, a7, p3, a3]
      simp [hcp]
    · rw [hst2]
      exact all_pending_congr _ s (m4.trans (r4.trans hps)) (m5.trans (r5.trans hpv))
        (m6.trans (r6.trans hpq))
  · intro hcp
    have hsFa : sF.area = s.area := by
      rw [f2, p2, a1]
      simp [hcp]
    have hsFp : sF.price = s.price := by
      rw [f3, p1, a7, a2]
      simp [hcp]
    have hsFf : sF.food = s.food := by
      rw [f1, p7, a7, p3, a3]
      simp [hcp]
    have hmap : (eA ++ eP ++ eF).map (fun e => (e.slot, e.value)) = spec_captured out cs := by
      rw [a8, p8, f8, p7, a7]
      by_cases hQA : slot_accepts out.area cs "2.2 Ask Area" = true <;>
      by_cases hQP : slot_accepts out.pricerange cs "3.2 Ask price" = true <;>
      by_cases hQF : slot_accepts out.food cs "4.2 Ask Food type" = true <;>
      simp [hcp, hQA, hQP, hQF, spec_captured]
    by_cases hE : eA ++ eP ++ eF = []
    · have hsc0 : spec_captured out cs = [] := by
        rw [← hmap, hE]
        rfl
      have heQ : queue_captured sF cs (env.classify u) (eA ++ eP ++ eF) =
          .inl (sF, cs, env.classify u) :=
        queue_captured_inl sF cs (env.classify u) _ (Or.inr hE)
      have hst2 : state_transition env s cs (some u) =
          main_branches env (reorder_step sF cs).1 (reorder_step sF cs).2 (env.classify u) (some u) := by
        rw [hst, hext, heQ]
      obtain ⟨m1, m2, m3, m4, m5, m6⟩ :=
        main_branches_fields env (reorder_step sF cs).1 (reorder_step sF cs).2 (env.classify u) (some u)
      obtain ⟨r1, r2, r3, r4, r5, r6⟩ := reorder_step_fields sF cs
      refine ⟨?_, ?_, ?_, ?_⟩
      · rw [hst2, m1, r1]
        exact hsFa
      · rw [hst2, m2, r2]
        exact hsFp
      · rw [hst2, m3, r3]
        exact hsFf
      · rw [hst2, hsc0, List.append_nil]
        exact all_pending_congr _ s (m4.trans (r4.trans hps)) (m5.trans (r5.trans hpv))
          (m6.trans (r6.trans hpq))
    · obtain ⟨s', r, hqe, hqa, hqp, hqf, hqpend⟩ :=
        queue_captured_inr sF cs (env.classify u) (eA ++ eP ++ eF) (hcf.trans hcp) hE
      have hst3 : state_transition env s cs (some u) = (s', r) := by
        rw [hst, hext, hqe]
      refine ⟨?_, ?_, ?_, ?_⟩
      · rw [hst3]
        exact hqa.trans hsFa
      · rw [hst3]
        exact hqp.trans hsFp
      · rw [hst3]
        exact hqf.trans hsFf
      · rw [hst3]
        show all_pending s' = all_pending s ++ spec_captured out cs
        rw [hqpend, hap, hmap]

/-- C4 witness: a concrete inform turn and a concrete reqalts turn in the
Welcome state, both without confirmation, commit the extracted food value,
through the theorem. -/
theorem C4_acceptance_witness :
    (state_transition (constEnv mainLex "inform") baseSession (some "1. Welcome")
        (some "i want chinese food")).1.food = some "chinese" ∧
    (state_transition (constEnv mainLex "reqalts") baseSession (some "1. Welcome")
        (some "i want chinese food")).1.food = some "chinese" := by
  constructor
  · have h := C4_acceptance_characterization (constEnv mainLex "inform") baseSession
      (some "1. Welcome") "i want chinese food" (Or.inl rfl) (by decide) (by decide)
    have h2 := h.1 (by decide)
    rw [h2.2.2.1]
    decide
  · have h := C4_acceptance_characterization (constEnv mainLex "reqalts") baseSession
      (some "1. Welcome") "i want chinese food" (Or.inr ⟨Or.inr rfl, by decide⟩)
      (by decide) (by decide)
    have h2 := h.1 (by decide)
    rw [h2.2.2.1]
    decide
